import Mathlib

/-!
A shallow embedding of `src/rs/persistent_lazy_rbtree/src/lib.rs`, a
persistent rank-balanced indexable sequence (red-black tree with leaves
holding the elements), together with proofs about its public operations.

Rust `unreachable!()` panics and failed `assert!` preconditions are
modelled by `Option`: a function that would panic returns `none`.
Machine integers (`usize`) are modelled by `Nat`; none of the arithmetic
in the source can overflow in a way any claim depends on, and all index
arithmetic is on small non-negative quantities.
-/

universe u

/-- Rust `enum Color { Red, Black }`. -/
inductive Color where
  | red
  | black
deriving DecidableEq, Repr

/-- Rust `enum Node<T>`: a leaf holding one element, or an internal node
holding a color, a cached rank, a cached length and two children. -/
inductive Node (α : Type u) where
  | leaf (val : α)
  | tree (color : Color) (rank : Nat) (len : Nat) (left : Node α) (right : Node α)
deriving DecidableEq, Repr

namespace Node

variable {α : Type u}

/-- Rust `Node::color`: a leaf is black. -/
def color : Node α → Color
  | .leaf _ => .black
  | .tree c _ _ _ _ => c

/-- Rust `Node::rank`: a leaf has rank 0, an internal node reports its cached rank. -/
def rank : Node α → Nat
  | .leaf _ => 0
  | .tree _ rk _ _ _ => rk

/-- Rust `Node::len`: a leaf has length 1, an internal node reports its cached length. -/
def len : Node α → Nat
  | .leaf _ => 1
  | .tree _ _ ln _ _ => ln

/-- Rust `Node::new`: build an internal node, computing the cached rank from the
left child (`left.rank + 1` if the left child is black, else `left.rank`)
and the cached length as the sum of the children's cached lengths. -/
def new (c : Color) (l r : Node α) : Node α :=
  .tree c (l.rank + match l.color with | .black => 1 | .red => 0) (l.len + r.len) l r

/-- Rust `Node::index`: positional lookup steered by the cached length of the left child. -/
def index : Node α → Nat → α
  | .leaf v, _ => v
  | .tree _ _ _ l r, i => if i < l.len then l.index i else r.index (i - l.len)

/-- Rust `Node::to_black`: re-wrap a red root as a black node with the same
children; anything else (a black internal node or a leaf, both of which
report color black) is returned unchanged. -/
def toBlack : Node α → Node α
  | .tree .red _ _ l r => new .black l r
  | src => src

/-- Rust `Node::merge`. The `none` results correspond exactly to the
`unreachable!()` panics of `Node::left`/`Node::right` being reached: on a
leaf where the source calls `.left()` or `.right()`, this returns `none`. -/
def merge (l r : Node α) : Option (Node α) :=
  if l.rank < r.rank then
      match r with
      | .leaf _ => none
      | .tree rc _ _ rl rr =>
        match merge l rl with
        | none => none
        | some m =>
          match m with
          | .leaf _ => none
          | .tree mc mrk mln ml mr =>
            match mc, ml.color, rc with
            | .red, .red, .black =>
              match rr.color with
              | .black => some (new .black ml (new .red mr rr))
              | .red =>
                match rr with
                | .leaf _ => none
                | .tree _ _ _ rrl rrr =>
                  some (new .red (new .black ml mr) (new .black rrl rrr))
            | _, _, _ => some (new rc (Node.tree mc mrk mln ml mr) rr)
    else if r.rank < l.rank then
      match l with
      | .leaf _ => none
      | .tree lc _ _ ll lr =>
        match merge lr r with
        | none => none
        | some m =>
          match m with
          | .leaf _ => none
          | .tree mc mrk mln ml mr =>
            match lc, mr.color, mc with
            | .black, .red, .red =>
              match ll.color with
              | .black => some (new .black (new .red ll ml) mr)
              | .red =>
                match ll with
                | .leaf _ => none
                | .tree _ _ _ lll llr =>
                  some (new .red (new .black lll llr) (new .black ml mr))
            | _, _, _ => some (new lc ll (Node.tree mc mrk mln ml mr))
    else
      some (new .red l r)
termination_by sizeOf l + sizeOf r
decreasing_by
  all_goals (simp_wf <;> omega)

/-- Rust `Node::split`. Splitting a leaf is the source's `unreachable!()`,
modelled as `none`. -/
def split : Node α → Nat → Option (Node α × Node α)
  | .leaf _, _ => none
  | .tree _ _ _ l r, i =>
    if i < l.len then
      match split l i with
      | none => none
      | some (ll, lr) =>
        match merge lr r with
        | none => none
        | some m => some (ll, m.toBlack)
    else if l.len < i then
      match split r (i - l.len) with
      | none => none
      | some (rl, rr) =>
        match merge l rl with
        | none => none
        | some m => some (m.toBlack, rr)
    else
      some (l.toBlack, r.toBlack)

/-- In-order list of elements held by the leaves. -/
def toList : Node α → List α
  | .leaf v => [v]
  | .tree _ _ _ l r => l.toList ++ r.toList

/-- Every internal node's cached `len` field equals the sum of its
children's cached `len` fields (hence the number of leaves below it). -/
def lenOk : Node α → Bool
  | .leaf _ => true
  | .tree _ _ ln l r => decide (ln = l.len + r.len) && l.lenOk && r.lenOk

/-- Every internal node's cached `rank` and `len` fields equal their
recursive recomputation (rank from the left child, len as the sum). -/
def cachedOk : Node α → Bool
  | .leaf _ => true
  | .tree _ rk ln l r =>
      decide (rk = l.rank + match l.color with | .black => 1 | .red => 0) &&
      decide (ln = l.len + r.len) && l.cachedOk && r.cachedOk

/-- At every internal node both children have equal (cached) rank: the
spec's "black-balance rule". -/
def eqRankOk : Node α → Bool
  | .leaf _ => true
  | .tree _ _ _ l r => decide (l.rank = r.rank) && l.eqRankOk && r.eqRankOk

/-- No red internal node has a red child: the spec's "red rule". -/
def redOk : Node α → Bool
  | .leaf _ => true
  | .tree c _ _ l r =>
      (match c, l.color, r.color with
       | .red, .red, _ => false
       | .red, _, .red => false
       | _, _, _ => true) && l.redOk && r.redOk

end Node

/-- Rust `struct PersistentLazyRBTree<T>`: an optional root. -/
structure PersistentLazyRBTree (α : Type u) where
  root : Option (Node α)
deriving DecidableEq, Repr

namespace PersistentLazyRBTree

variable {α : Type u}

/-- Rust `PersistentLazyRBTree::new`: the empty sequence. -/
def new : PersistentLazyRBTree α := ⟨none⟩

/-- Rust `PersistentLazyRBTree::len`. -/
def len (s : PersistentLazyRBTree α) : Nat :=
  match s.root with
  | none => 0
  | some root => root.len

/-- Rust `PersistentLazyRBTree::merge`: empty fast paths, otherwise node-engine
merge followed by `to_black` of the root. -/
def merge (l r : PersistentLazyRBTree α) : Option (PersistentLazyRBTree α) :=
  match l.root, r.root with
  | none, _ => some r
  | _, none => some l
  | some ln, some rn =>
    match ln.merge rn with
    | none => none
    | some m => some ⟨some m.toBlack⟩

/-- Rust `PersistentLazyRBTree::split`. A failed `assert!(index <= self.len())`
is modelled as `none`, as is the (unreachable) `unwrap` of an empty root. -/
def split (s : PersistentLazyRBTree α) (i : Nat) : Option (PersistentLazyRBTree α × PersistentLazyRBTree α) :=
  if i ≤ s.len then
    if i = 0 then some (new, s)
    else if i = s.len then some (s, new)
    else
      match s.root with
      | none => none
      | some root =>
        match root.split i with
        | none => none
        | some (l, r) => some (⟨some l⟩, ⟨some r⟩)
  else none

/-- Rust `PersistentLazyRBTree::insert`: split at `i`, then two merges around a
fresh leaf. -/
def insert (s : PersistentLazyRBTree α) (i : Nat) (v : α) : Option (PersistentLazyRBTree α) :=
  if i ≤ s.len then
    match s.split i with
    | none => none
    | some (l, r) =>
      match merge l ⟨some (.leaf v)⟩ with
      | none => none
      | some m => merge m r
  else none

/-- Rust `PersistentLazyRBTree::erase`: split at `i`, split off one element,
merge the remainder. -/
def erase (s : PersistentLazyRBTree α) (i : Nat) : Option (PersistentLazyRBTree α) :=
  if i < s.len then
    match s.split i with
    | none => none
    | some (l, rest) =>
      match rest.split 1 with
      | none => none
      | some (_, r) => merge l r
  else none

/-- Rust `Index::index` for the facade: bounds-checked positional lookup. -/
def index (s : PersistentLazyRBTree α) (i : Nat) : Option α :=
  if i < s.len then
    match s.root with
    | none => none
    | some root => some (root.index i)
  else none

/-- In-order list of the sequence's elements. -/
def toList (s : PersistentLazyRBTree α) : List α :=
  match s.root with
  | none => []
  | some root => root.toList

/-- Cached lengths below the root are consistent. -/
def lenOk (s : PersistentLazyRBTree α) : Bool :=
  match s.root with
  | none => true
  | some root => root.lenOk

/-- Cached rank and len fields below the root are consistent. -/
def cachedOk (s : PersistentLazyRBTree α) : Bool :=
  match s.root with
  | none => true
  | some root => root.cachedOk

/-- The root, when present, is black. -/
def rootBlack (s : PersistentLazyRBTree α) : Bool :=
  match s.root with
  | none => true
  | some root => decide (root.color = .black)

/-- The spec's black-balance rule for the whole sequence. -/
def seqEqRankOk (s : PersistentLazyRBTree α) : Bool :=
  match s.root with
  | none => true
  | some root => root.eqRankOk

/-- The spec's red rule for the whole sequence. -/
def seqRedOk (s : PersistentLazyRBTree α) : Bool :=
  match s.root with
  | none => true
  | some root => root.redOk

end PersistentLazyRBTree


namespace Node

variable {α : Type u}

/-- Whether a node is internal (a `Tree` rather than a `Leaf`). -/
def isTree : Node α → Bool
  | .leaf _ => false
  | .tree _ _ _ _ _ => true

end Node

/-- Rust `struct Iter<'a, T>`: the `[begin, end)` cursor bounds. The
borrowed tree is passed to `next`/`nextBack` explicitly. -/
structure Iter where
  beginIdx : Nat
  endIdx : Nat
deriving DecidableEq, Repr

namespace Iter

variable {α : Type u}

/-- Rust `PersistentLazyRBTree::iter`: a cursor with `begin = 0`, `end = len`. -/
def init (s : PersistentLazyRBTree α) : Iter := ⟨0, s.len⟩

/-- Rust `Iterator::next` for `Iter`: yields `tree[begin]` while
`begin < tree.len()` (the source compares against the tree length, not
against `end`), then advances `begin`. -/
def next (s : PersistentLazyRBTree α) (it : Iter) : Option α × Iter :=
  if it.beginIdx < s.len then
    (s.index it.beginIdx, ⟨it.beginIdx + 1, it.endIdx⟩)
  else (none, it)

/-- Rust `DoubleEndedIterator::next_back` for `Iter`: yields `tree[end - 1]`
while `end > 0` (the source compares against 0, not against `begin`),
decrementing `end`. -/
def nextBack (s : PersistentLazyRBTree α) (it : Iter) : Option α × Iter :=
  if 0 < it.endIdx then
    (s.index (it.endIdx - 1), ⟨it.beginIdx, it.endIdx - 1⟩)
  else (none, it)

end Iter

namespace PersistentLazyRBTree

variable {α : Type u}

/-- The inner loop of `FromIterator::from_iter`: push `cur` onto the stack
`res` (head = top of stack), first repeatedly merging it with the top
while the top has equal length. -/
def pushItem : List (PersistentLazyRBTree α) → PersistentLazyRBTree α →
    Option (List (PersistentLazyRBTree α))
  | [], cur => some [cur]
  | last :: rest, cur =>
    if last.len = cur.len then
      match merge last cur with
      | none => none
      | some c => pushItem rest c
    else some (cur :: last :: rest)

/-- The final loop of `FromIterator::from_iter`: while at least two stack
entries remain, pop the top two and push their merge. -/
def finalLoop : List (PersistentLazyRBTree α) → Option (List (PersistentLazyRBTree α))
  | r :: l :: rest =>
    match merge l r with
    | none => none
    | some m => finalLoop (m :: rest)
  | xs => some xs
termination_by xs => xs.length
decreasing_by
  all_goals simp

/-- The item loop of `FromIterator::from_iter`: wrap each item as a
singleton (`Self::new().insert(0, item)`) and push it. -/
def fromIterAux : List α → List (PersistentLazyRBTree α) →
    Option (List (PersistentLazyRBTree α))
  | [], res => some res
  | item :: rest, res =>
    match insert new 0 item with
    | none => none
    | some cur =>
      match pushItem res cur with
      | none => none
      | some res2 => fromIterAux rest res2

/-- Rust `FromIterator::from_iter`. The final `res.remove(0)` panics when the
stack is empty (empty input), modelled as `none`; with at most one entry
left it returns that entry. -/
def fromIter (items : List α) : Option (PersistentLazyRBTree α) :=
  match fromIterAux items [] with
  | none => none
  | some res =>
    match finalLoop res with
    | none => none
    | some [] => none
    | some (x :: _) => some x

end PersistentLazyRBTree

namespace PersistentLazyRBTree

variable {α : Type u}

/-- The elements held by a stack of sequences, bottom chunk first (the
head of the list is the top of the stack). -/
def stackList : List (PersistentLazyRBTree α) → List α
  | [] => []
  | s :: rest => stackList rest ++ s.toList

/-- A well-formed non-empty sequence: consistent cached fields, a black
root, and a root that is present. -/
def Good (s : PersistentLazyRBTree α) : Prop :=
  s.lenOk = true ∧ s.cachedOk = true ∧ s.rootBlack = true ∧ s.root ≠ none

/-- The sequences reachable from the empty sequence through the public
operations (`new`, `insert`, `erase`, `merge`, `split`, `fromIter`) called
with in-range indices. -/
inductive Reachable : PersistentLazyRBTree α → Prop
  | new : Reachable new
  | insert {s : PersistentLazyRBTree α} {i : Nat} {v : α} {t : PersistentLazyRBTree α} :
      Reachable s → i ≤ s.len → s.insert i v = some t → Reachable t
  | erase {s : PersistentLazyRBTree α} {i : Nat} {t : PersistentLazyRBTree α} :
      Reachable s → i < s.len → s.erase i = some t → Reachable t
  | merge {a b t : PersistentLazyRBTree α} :
      Reachable a → Reachable b → merge a b = some t → Reachable t
  | splitLeft {s : PersistentLazyRBTree α} {i : Nat} {l r : PersistentLazyRBTree α} :
      Reachable s → i ≤ s.len → s.split i = some (l, r) → Reachable l
  | splitRight {s : PersistentLazyRBTree α} {i : Nat} {l r : PersistentLazyRBTree α} :
      Reachable s → i ≤ s.len → s.split i = some (l, r) → Reachable r
  | fromIter {items : List α} {t : PersistentLazyRBTree α} :
      fromIter items = some t → Reachable t

end PersistentLazyRBTree

/-- Step 0 of the red-rule counterexample chain. -/

def cxT0 : PersistentLazyRBTree Nat := ⟨none⟩

def cxT1 : PersistentLazyRBTree Nat := ⟨some (.leaf 1)⟩

def cxT2 : PersistentLazyRBTree Nat := ⟨some (.tree .black 1 2 (.leaf 2) (.leaf 1))⟩

def cxT3 : PersistentLazyRBTree Nat := ⟨some (.tree .black 1 3 (.leaf 2) (.tree .red 1 2 (.leaf 3) (.leaf 1)))⟩

def cxT4 : PersistentLazyRBTree Nat := ⟨some (.tree .black 2 4 (.tree .black 1 2 (.leaf 2) (.leaf 4)) (.tree .black 1 2 (.leaf 3) (.leaf 1)))⟩

def cxT5 : PersistentLazyRBTree Nat := ⟨some (.tree .black 2 5 (.tree .black 1 2 (.leaf 2) (.leaf 4)) (.tree .black 1 3 (.leaf 3) (.tree .red 1 2 (.leaf 5) (.leaf 1))))⟩

def cxT6 : PersistentLazyRBTree Nat := ⟨some (.tree .black 2 6 (.tree .black 1 2 (.leaf 2) (.leaf 6)) (.tree .black 1 4 (.tree .red 1 2 (.leaf 4) (.leaf 3)) (.tree .red 1 2 (.leaf 5) (.leaf 1))))⟩

def cxT7 : PersistentLazyRBTree Nat := ⟨some (.leaf 7)⟩

def cxT8 : PersistentLazyRBTree Nat := ⟨some (.tree .black 2 7 (.tree .black 1 2 (.leaf 2) (.leaf 6)) (.tree .red 2 5 (.tree .black 1 2 (.leaf 4) (.leaf 3)) (.tree .black 1 3 (.leaf 5) (.tree .red 1 2 (.leaf 1) (.leaf 7)))))⟩

def cxT9 : PersistentLazyRBTree Nat := ⟨some (.tree .black 2 8 (.tree .black 1 4 (.tree .red 1 2 (.leaf 2) (.leaf 6)) (.tree .red 1 2 (.leaf 4) (.leaf 8))) (.tree .black 1 4 (.tree .red 1 2 (.leaf 3) (.leaf 5)) (.tree .red 1 2 (.leaf 1) (.leaf 7))))⟩

def cxT10 : PersistentLazyRBTree Nat := ⟨some (.tree .black 2 9 (.tree .black 1 4 (.tree .red 1 2 (.leaf 2) (.leaf 6)) (.tree .red 1 2 (.leaf 4) (.leaf 8))) (.tree .red 2 5 (.tree .black 1 3 (.leaf 3) (.tree .red 1 2 (.leaf 5) (.leaf 9))) (.tree .black 1 2 (.leaf 1) (.leaf 7))))⟩

def cxT11 : PersistentLazyRBTree Nat := ⟨some (.tree .black 2 8 (.tree .red 2 6 (.tree .black 1 3 (.tree .red 1 2 (.leaf 6) (.leaf 4)) (.leaf 8)) (.tree .black 1 3 (.leaf 3) (.tree .red 1 2 (.leaf 5) (.leaf 9)))) (.tree .black 1 2 (.leaf 1) (.leaf 7)))⟩

def cxT12 : PersistentLazyRBTree Nat := ⟨some (.tree .black 2 7 (.tree .black 1 4 (.tree .red 1 2 (.leaf 6) (.leaf 4)) (.tree .red 1 2 (.leaf 8) (.leaf 3))) (.tree .black 1 3 (.tree .red 1 2 (.leaf 9) (.leaf 1)) (.leaf 7)))⟩

def cxT13 : PersistentLazyRBTree Nat := ⟨some (.tree .black 1 3 (.leaf 10) (.tree .red 1 2 (.leaf 11) (.leaf 12)))⟩

def cxT14 : PersistentLazyRBTree Nat := ⟨some (.tree .black 2 10 (.tree .black 1 4 (.tree .red 1 2 (.leaf 6) (.leaf 4)) (.tree .red 1 2 (.leaf 8) (.leaf 3))) (.tree .red 2 6 (.tree .black 1 3 (.tree .red 1 2 (.leaf 9) (.leaf 1)) (.leaf 7)) (.tree .black 1 3 (.leaf 10) (.tree .red 1 2 (.leaf 11) (.leaf 12)))))⟩

def cxT15 : PersistentLazyRBTree Nat := ⟨some (.tree .black 2 11 (.tree .red 2 7 (.tree .black 1 4 (.tree .red 1 2 (.leaf 6) (.leaf 4)) (.tree .red 1 2 (.leaf 8) (.leaf 3))) (.tree .black 1 3 (.tree .red 1 2 (.leaf 9) (.leaf 1)) (.leaf 7))) (.tree .black 1 4 (.tree .red 1 2 (.leaf 10) (.leaf 11)) (.tree .red 1 2 (.leaf 13) (.leaf 12))))⟩

def cxT16 : PersistentLazyRBTree Nat := ⟨some (.tree .black 2 10 (.tree .red 2 6 (.tree .black 1 3 (.tree .red 1 2 (.leaf 6) (.leaf 8)) (.leaf 3)) (.tree .black 1 3 (.tree .red 1 2 (.leaf 9) (.leaf 1)) (.leaf 7))) (.tree .black 1 4 (.tree .red 1 2 (.leaf 10) (.leaf 11)) (.tree .red 1 2 (.leaf 13) (.leaf 12))))⟩

def cxT17 : PersistentLazyRBTree Nat := ⟨some (.tree .black 3 9 (.tree .black 2 5 (.tree .black 1 3 (.tree .red 1 2 (.leaf 6) (.leaf 8)) (.leaf 3)) (.tree .black 1 2 (.leaf 9) (.leaf 1))) (.tree .black 2 4 (.tree .black 1 2 (.leaf 10) (.leaf 11)) (.tree .black 1 2 (.leaf 13) (.leaf 12))))⟩

def cxT18 : PersistentLazyRBTree Nat := ⟨some (.tree .black 2 10 (.tree .red 2 5 (.tree .black 1 3 (.tree .red 1 2 (.leaf 6) (.leaf 8)) (.leaf 3)) (.tree .black 1 2 (.leaf 9) (.leaf 1))) (.tree .red 2 5 (.tree .black 1 2 (.leaf 10) (.leaf 11)) (.tree .black 1 3 (.leaf 13) (.tree .red 1 2 (.leaf 14) (.leaf 12)))))⟩

def cxT19 : PersistentLazyRBTree Nat := ⟨some (.tree .black 2 11 (.tree .red 2 5 (.tree .black 1 3 (.tree .red 1 2 (.leaf 6) (.leaf 8)) (.leaf 3)) (.tree .black 1 2 (.leaf 9) (.leaf 1))) (.tree .black 2 6 (.tree .black 1 2 (.leaf 10) (.leaf 11)) (.tree .black 1 4 (.tree .red 1 2 (.leaf 13) (.leaf 14)) (.tree .red 1 2 (.leaf 15) (.leaf 12)))))⟩

def cxT20 : PersistentLazyRBTree Nat := ⟨some (.tree .black 2 7 (.tree .black 1 2 (.leaf 16) (.leaf 17)) (.tree .red 2 5 (.tree .black 1 2 (.leaf 18) (.leaf 19)) (.tree .black 1 3 (.leaf 20) (.tree .red 1 2 (.leaf 21) (.leaf 22)))))⟩

def cxT21 : PersistentLazyRBTree Nat := ⟨some (.tree .black 3 18 (.tree .black 2 11 (.tree .red 2 5 (.tree .black 1 3 (.tree .red 1 2 (.leaf 6) (.leaf 8)) (.leaf 3)) (.tree .black 1 2 (.leaf 9) (.leaf 1))) (.tree .black 2 6 (.tree .black 1 2 (.leaf 10) (.leaf 11)) (.tree .black 1 4 (.tree .red 1 2 (.leaf 13) (.leaf 14)) (.tree .red 1 2 (.leaf 15) (.leaf 12))))) (.tree .black 2 7 (.tree .black 1 2 (.leaf 16) (.leaf 17)) (.tree .red 2 5 (.tree .black 1 2 (.leaf 18) (.leaf 19)) (.tree .black 1 3 (.leaf 20) (.tree .red 1 2 (.leaf 21) (.leaf 22))))))⟩

def cxT22 : PersistentLazyRBTree Nat := ⟨some (.tree .black 2 6 (.tree .black 1 2 (.leaf 23) (.leaf 24)) (.tree .red 2 4 (.tree .black 1 2 (.leaf 25) (.leaf 26)) (.tree .black 1 2 (.leaf 27) (.leaf 28))))⟩

def cxT23 : PersistentLazyRBTree Nat := ⟨some (.tree .black 3 24 (.tree .black 2 11 (.tree .red 2 5 (.tree .black 1 3 (.tree .red 1 2 (.leaf 6) (.leaf 8)) (.leaf 3)) (.tree .black 1 2 (.leaf 9) (.leaf 1))) (.tree .black 2 6 (.tree .black 1 2 (.leaf 10) (.leaf 11)) (.tree .black 1 4 (.tree .red 1 2 (.leaf 13) (.leaf 14)) (.tree .red 1 2 (.leaf 15) (.leaf 12))))) (.tree .red 3 13 (.tree .black 2 7 (.tree .black 1 2 (.leaf 16) (.leaf 17)) (.tree .red 2 5 (.tree .black 1 2 (.leaf 18) (.leaf 19)) (.tree .black 1 3 (.leaf 20) (.tree .red 1 2 (.leaf 21) (.leaf 22))))) (.tree .black 2 6 (.tree .black 1 2 (.leaf 23) (.leaf 24)) (.tree .red 2 4 (.tree .black 1 2 (.leaf 25) (.leaf 26)) (.tree .black 1 2 (.leaf 27) (.leaf 28))))))⟩

def cxT24 : PersistentLazyRBTree Nat := ⟨some (.leaf 29)⟩

def cxT25 : PersistentLazyRBTree Nat := ⟨some (.tree .black 3 25 (.tree .black 2 11 (.tree .red 2 5 (.tree .black 1 3 (.tree .red 1 2 (.leaf 6) (.leaf 8)) (.leaf 3)) (.tree .black 1 2 (.leaf 9) (.leaf 1))) (.tree .black 2 6 (.tree .black 1 2 (.leaf 10) (.leaf 11)) (.tree .black 1 4 (.tree .red 1 2 (.leaf 13) (.leaf 14)) (.tree .red 1 2 (.leaf 15) (.leaf 12))))) (.tree .red 3 14 (.tree .black 2 7 (.tree .black 1 2 (.leaf 16) (.leaf 17)) (.tree .red 2 5 (.tree .black 1 2 (.leaf 18) (.leaf 19)) (.tree .black 1 3 (.leaf 20) (.tree .red 1 2 (.leaf 21) (.leaf 22))))) (.tree .black 2 7 (.tree .black 1 2 (.leaf 23) (.leaf 24)) (.tree .red 2 5 (.tree .black 1 2 (.leaf 25) (.leaf 26)) (.tree .black 1 3 (.leaf 27) (.tree .red 1 2 (.leaf 28) (.leaf 29)))))))⟩

def cxT26 : PersistentLazyRBTree Nat := ⟨some (.tree .black 2 4 (.tree .black 1 2 (.leaf 30) (.leaf 31)) (.tree .black 1 2 (.leaf 32) (.leaf 33)))⟩

def cxT27 : PersistentLazyRBTree Nat := ⟨some (.tree .black 3 29 (.tree .red 3 18 (.tree .black 2 11 (.tree .red 2 5 (.tree .black 1 3 (.tree .red 1 2 (.leaf 6) (.leaf 8)) (.leaf 3)) (.tree .black 1 2 (.leaf 9) (.leaf 1))) (.tree .black 2 6 (.tree .black 1 2 (.leaf 10) (.leaf 11)) (.tree .black 1 4 (.tree .red 1 2 (.leaf 13) (.leaf 14)) (.tree .red 1 2 (.leaf 15) (.leaf 12))))) (.tree .black 2 7 (.tree .black 1 2 (.leaf 16) (.leaf 17)) (.tree .red 2 5 (.tree .black 1 2 (.leaf 18) (.leaf 19)) (.tree .black 1 3 (.leaf 20) (.tree .red 1 2 (.leaf 21) (.leaf 22)))))) (.tree .red 3 11 (.tree .black 2 7 (.tree .black 1 2 (.leaf 23) (.leaf 24)) (.tree .red 2 5 (.tree .black 1 2 (.leaf 25) (.leaf 26)) (.tree .black 1 3 (.leaf 27) (.tree .red 1 2 (.leaf 28) (.leaf 29))))) (.tree .black 2 4 (.tree .black 1 2 (.leaf 30) (.leaf 31)) (.tree .black 1 2 (.leaf 32) (.leaf 33)))))⟩

def cxT28 : PersistentLazyRBTree Nat := ⟨some (.tree .black 3 15 (.tree .black 2 11 (.tree .red 2 5 (.tree .black 1 3 (.tree .red 1 2 (.leaf 6) (.leaf 8)) (.leaf 3)) (.tree .black 1 2 (.leaf 9) (.leaf 1))) (.tree .black 2 6 (.tree .black 1 2 (.leaf 10) (.leaf 11)) (.tree .black 1 4 (.tree .red 1 2 (.leaf 13) (.leaf 14)) (.tree .red 1 2 (.leaf 15) (.leaf 12))))) (.tree .black 2 4 (.tree .black 1 2 (.leaf 16) (.leaf 17)) (.tree .black 1 2 (.leaf 18) (.leaf 19))))⟩

def cxT29 : PersistentLazyRBTree Nat := ⟨some (.tree .black 3 14 (.tree .black 2 10 (.tree .red 2 5 (.tree .black 1 3 (.leaf 20) (.tree .red 1 2 (.leaf 21) (.leaf 22))) (.tree .black 1 2 (.leaf 23) (.leaf 24))) (.tree .red 2 5 (.tree .black 1 2 (.leaf 25) (.leaf 26)) (.tree .black 1 3 (.leaf 27) (.tree .red 1 2 (.leaf 28) (.leaf 29))))) (.tree .black 2 4 (.tree .black 1 2 (.leaf 30) (.leaf 31)) (.tree .black 1 2 (.leaf 32) (.leaf 33))))⟩

def cxT30 : PersistentLazyRBTree Nat := ⟨some (.tree .black 4 29 (.tree .black 3 15 (.tree .black 2 11 (.tree .red 2 5 (.tree .black 1 3 (.tree .red 1 2 (.leaf 6) (.leaf 8)) (.leaf 3)) (.tree .black 1 2 (.leaf 9) (.leaf 1))) (.tree .black 2 6 (.tree .black 1 2 (.leaf 10) (.leaf 11)) (.tree .black 1 4 (.tree .red 1 2 (.leaf 13) (.leaf 14)) (.tree .red 1 2 (.leaf 15) (.leaf 12))))) (.tree .black 2 4 (.tree .black 1 2 (.leaf 16) (.leaf 17)) (.tree .black 1 2 (.leaf 18) (.leaf 19)))) (.tree .black 3 14 (.tree .black 2 10 (.tree .red 2 5 (.tree .black 1 3 (.leaf 20) (.tree .red 1 2 (.leaf 21) (.leaf 22))) (.tree .black 1 2 (.leaf 23) (.leaf 24))) (.tree .red 2 5 (.tree .black 1 2 (.leaf 25) (.leaf 26)) (.tree .black 1 3 (.leaf 27) (.tree .red 1 2 (.leaf 28) (.leaf 29))))) (.tree .black 2 4 (.tree .black 1 2 (.leaf 30) (.leaf 31)) (.tree .black 1 2 (.leaf 32) (.leaf 33)))))⟩

def cxT31 : PersistentLazyRBTree Nat := ⟨some (.tree .black 4 28 (.tree .black 3 15 (.tree .black 2 11 (.tree .red 2 5 (.tree .black 1 3 (.tree .red 1 2 (.leaf 6) (.leaf 8)) (.leaf 3)) (.tree .black 1 2 (.leaf 9) (.leaf 1))) (.tree .black 2 6 (.tree .black 1 2 (.leaf 10) (.leaf 11)) (.tree .black 1 4 (.tree .red 1 2 (.leaf 13) (.leaf 14)) (.tree .red 1 2 (.leaf 15) (.leaf 12))))) (.tree .black 2 4 (.tree .black 1 2 (.leaf 16) (.leaf 17)) (.tree .black 1 2 (.leaf 18) (.leaf 19)))) (.tree .black 3 13 (.tree .black 2 4 (.tree .black 1 2 (.leaf 21) (.leaf 22)) (.tree .black 1 2 (.leaf 23) (.leaf 24))) (.tree .red 2 9 (.tree .red 2 5 (.tree .black 1 2 (.leaf 25) (.leaf 26)) (.tree .black 1 3 (.leaf 27) (.tree .red 1 2 (.leaf 28) (.leaf 29)))) (.tree .black 2 4 (.tree .black 1 2 (.leaf 30) (.leaf 31)) (.tree .black 1 2 (.leaf 32) (.leaf 33))))))⟩

/-- The claim's reference semantics for bulk construction: repeatedly
calling `insert(seq, len(seq), v)` for each value in order, starting from
the empty sequence. -/
def PersistentLazyRBTree.pushBuild {α : Type u} (items : List α) : Option (PersistentLazyRBTree α) :=
  items.foldl
    (fun acc v =>
      match acc with
      | none => none
      | some s => s.insert s.len v)
    (some PersistentLazyRBTree.new)

/-- The sequence obtained by inserting 0, 1, 2 at the end of the empty
sequence, one at a time. Its root has children of cached ranks 0 and 1. -/
def c2aT1 : PersistentLazyRBTree Nat := ⟨some (.leaf 0)⟩

def c2aT2 : PersistentLazyRBTree Nat := ⟨some (.tree .black 1 2 (.leaf 0) (.leaf 1))⟩

def c2aT3 : PersistentLazyRBTree Nat :=
  ⟨some (.tree .black 1 3 (.leaf 0) (.tree .red 1 2 (.leaf 1) (.leaf 2)))⟩


namespace Node

variable {α : Type u}

@[simp] theorem color_leaf (v : α) : (Node.leaf v).color = Color.black := rfl

@[simp] theorem color_tree (c : Color) (rk ln : Nat) (l r : Node α) :
    (Node.tree c rk ln l r).color = c := rfl

@[simp] theorem rank_leaf (v : α) : (Node.leaf v).rank = 0 := rfl

@[simp] theorem rank_tree (c : Color) (rk ln : Nat) (l r : Node α) :
    (Node.tree c rk ln l r).rank = rk := rfl

@[simp] theorem len_leaf (v : α) : (Node.leaf v).len = 1 := rfl

@[simp] theorem len_tree (c : Color) (rk ln : Nat) (l r : Node α) :
    (Node.tree c rk ln l r).len = ln := rfl

@[simp] theorem toList_leaf (v : α) : (Node.leaf v).toList = [v] := rfl

@[simp] theorem toList_tree (c : Color) (rk ln : Nat) (l r : Node α) :
    (Node.tree c rk ln l r).toList = l.toList ++ r.toList := rfl

@[simp] theorem lenOk_leaf (v : α) : (Node.leaf v).lenOk = true := rfl

@[simp] theorem lenOk_tree (c : Color) (rk ln : Nat) (l r : Node α) :
    (Node.tree c rk ln l r).lenOk =
      (decide (ln = l.len + r.len) && l.lenOk && r.lenOk) := rfl

@[simp] theorem cachedOk_leaf (v : α) : (Node.leaf v).cachedOk = true := rfl

@[simp] theorem cachedOk_tree (c : Color) (rk ln : Nat) (l r : Node α) :
    (Node.tree c rk ln l r).cachedOk =
      (decide (rk = l.rank + match l.color with | .black => 1 | .red => 0) &&
       decide (ln = l.len + r.len) && l.cachedOk && r.cachedOk) := rfl

@[simp] theorem isTree_leaf (v : α) : (Node.leaf v).isTree = false := rfl

@[simp] theorem isTree_tree (c : Color) (rk ln : Nat) (l r : Node α) :
    (Node.tree c rk ln l r).isTree = true := rfl

@[simp] theorem color_new (c : Color) (l r : Node α) : (new c l r).color = c := rfl

@[simp] theorem len_new (c : Color) (l r : Node α) : (new c l r).len = l.len + r.len := rfl

@[simp] theorem toList_new (c : Color) (l r : Node α) :
    (new c l r).toList = l.toList ++ r.toList := rfl

@[simp] theorem isTree_new (c : Color) (l r : Node α) : (new c l r).isTree = true := rfl

@[simp] theorem lenOk_new (c : Color) (l r : Node α) :
    (new c l r).lenOk = (l.lenOk && r.lenOk) := by
  simp [new]

@[simp] theorem cachedOk_new (c : Color) (l r : Node α) :
    (new c l r).cachedOk = (l.cachedOk && r.cachedOk) := by
  simp [new]

/-- A node whose color is red is an internal node (leaves are black). -/
theorem isTree_of_color_red {t : Node α} (h : t.color = Color.red) : t.isTree = true := by
  cases t with
  | leaf v => simp [color] at h
  | tree c rk ln l r => simp

theorem toList_ne_nil (t : Node α) : t.toList ≠ [] := by
  induction t with
  | leaf v => simp
  | tree c rk ln l r ihl ihr => simp [ihl]

/-- Under `lenOk`, the cached length is the number of elements. -/
theorem len_eq_length_toList {t : Node α} (h : t.lenOk = true) :
    t.len = t.toList.length := by
  induction t with
  | leaf v => simp
  | tree c rk ln l r ihl ihr =>
    simp only [lenOk_tree, Bool.and_eq_true, decide_eq_true_eq] at h
    simp [h.1.1, ihl h.1.2, ihr h.2]

@[simp] theorem color_toBlack (t : Node α) : t.toBlack.color = Color.black := by
  cases t with
  | leaf v => rfl
  | tree c rk ln l r => cases c <;> rfl

@[simp] theorem toList_toBlack (t : Node α) : t.toBlack.toList = t.toList := by
  cases t with
  | leaf v => rfl
  | tree c rk ln l r => cases c <;> rfl

theorem lenOk_toBlack {t : Node α} (h : t.lenOk = true) : t.toBlack.lenOk = true := by
  cases t with
  | leaf v => exact h
  | tree c rk ln l r =>
    cases c
    · simp only [lenOk_tree, Bool.and_eq_true] at h
      simp [toBlack, h.1.2, h.2]
    · exact h

theorem cachedOk_toBlack {t : Node α} (h : t.cachedOk = true) : t.toBlack.cachedOk = true := by
  cases t with
  | leaf v => exact h
  | tree c rk ln l r =>
    cases c
    · simp only [cachedOk_tree, Bool.and_eq_true] at h
      simp [toBlack, h.1.2, h.2]
    · exact h

theorem len_toBlack {t : Node α} (h : t.lenOk = true) : t.toBlack.len = t.len := by
  cases t with
  | leaf v => rfl
  | tree c rk ln l r =>
    cases c
    · simp only [lenOk_tree, Bool.and_eq_true, decide_eq_true_eq] at h
      simp [toBlack, h.1.1]
    · rfl

end Node

namespace Node

variable {α : Type u}

theorem merge_spec (a b : Node α) :
    ∃ m, a.merge b = some m ∧ m.isTree = true ∧
      m.toList = a.toList ++ b.toList ∧
      (a.lenOk = true → b.lenOk = true → m.lenOk = true) ∧
      (a.cachedOk = true → b.cachedOk = true → m.cachedOk = true) := by
  induction a, b using Node.merge.induct
  case case1 l v h => simp at h
  case case2 l rc rrk rln rl rr hnone hlt ih =>
    obtain ⟨m, hm, -⟩ := ih
    rw [hm] at hnone; exact absurd hnone (by simp)
  case case3 l rc rrk rln rl rr v hlt hsome ih =>
    obtain ⟨m, hm, htree, -⟩ := ih
    rw [hm] at hsome
    obtain rfl := Option.some.inj hsome
    simp at htree
  case case4 l rrk rln rl rr mrk mln ml mr hml hrr hlt hsome ih =>
    obtain ⟨m, hm, htree, hlist, hlen, hcached⟩ := ih
    rw [hm] at hsome
    obtain rfl := Option.some.inj hsome
    refine ⟨new .black ml (new .red mr rr), ?_, by simp, ?_, ?_, ?_⟩
    · simp only [rank_tree] at hlt
      rcases l with v | ⟨lc, lrk, lln, ll, lr⟩ <;>
        simp only [rank_leaf, rank_tree] at hlt <;>
        simp [Node.merge, hm, hml, hrr, hlt]
    · simp only [toList_new, toList_tree] at hlist ⊢
      rw [← List.append_assoc, hlist, List.append_assoc]
    · intro hA hB
      simp only [lenOk_tree, Bool.and_eq_true] at hB
      have := hlen hA hB.1.2
      simp only [lenOk_tree, Bool.and_eq_true] at this
      simp [this.1.2, this.2, hB.2]
    · intro hA hB
      simp only [cachedOk_tree, Bool.and_eq_true] at hB
      have := hcached hA hB.1.2
      simp only [cachedOk_tree, Bool.and_eq_true] at this
      simp [this.1.2, this.2, hB.2]
  case case5 l rrk rln rl mrk mln ml mr hml v hleafred hlt hsome ih =>
    simp at hleafred
  case case6 l rrk rln rl mrk mln ml mr hml c2 rrk2 rln2 rrl rrr hrr hlt hsome ih =>
    obtain ⟨m, hm, htree, hlist, hlen, hcached⟩ := ih
    rw [hm] at hsome
    obtain rfl := Option.some.inj hsome
    simp only [color_tree] at hrr
    subst hrr
    refine ⟨new .red (new .black ml mr) (new .black rrl rrr), ?_, by simp, ?_, ?_, ?_⟩
    · simp only [rank_tree] at hlt
      rcases l with v | ⟨lc, lrk, lln, ll, lr⟩ <;>
        simp only [rank_leaf, rank_tree] at hlt <;>
        simp [Node.merge, hm, hml, hlt]
    · simp only [toList_new, toList_tree] at hlist ⊢
      rw [← List.append_assoc, hlist]
      simp [List.append_assoc]
    · intro hA hB
      simp only [lenOk_tree, Bool.and_eq_true] at hB
      have := hlen hA hB.1.2
      have h2 := hB.2
      simp only [lenOk_tree, Bool.and_eq_true] at this h2
      simp [this.1.2, this.2, h2.1.2, h2.2]
    · intro hA hB
      simp only [cachedOk_tree, Bool.and_eq_true] at hB
      have := hcached hA hB.1.2
      have h2 := hB.2
      simp only [cachedOk_tree, Bool.and_eq_true] at this h2
      simp [this.1.2, this.2, h2.1.2, h2.2]
  case case7 l rrk rln rl rr mrk mln ml mr mc rc hcon hlt hsome ih =>
    obtain ⟨m, hm, htree, hlist, hlen, hcached⟩ := ih
    rw [hm] at hsome
    obtain rfl := Option.some.inj hsome
    refine ⟨new rc (Node.tree mc mrk mln ml mr) rr, ?_, by simp, ?_, ?_, ?_⟩
    · simp only [rank_tree] at hlt
      rcases mc <;> rcases hmlc : ml.color <;> rcases rc <;>
        first
          | exact absurd rfl (by intro h; exact hcon h hmlc rfl)
          | (rcases l with v | ⟨lc, lrk, lln, ll, lr⟩ <;>
              simp only [rank_leaf, rank_tree] at hlt <;>
              simp [Node.merge, hm, hmlc, hlt])
    · simp only [toList_new, toList_tree] at hlist ⊢
      rw [hlist]
      simp [List.append_assoc]
    · intro hA hB
      simp only [lenOk_tree, Bool.and_eq_true] at hB
      have := hlen hA hB.1.2
      simp [this, hB.2]
    · intro hA hB
      simp only [cachedOk_tree, Bool.and_eq_true] at hB
      have := hcached hA hB.1.2
      simp [this, hB.2]
  case case8 r v hnlt hgt => simp at hgt
  case case9 r lc lrk lln ll lr hnone hnlt hgt ih =>
    obtain ⟨m, hm, -⟩ := ih
    rw [hm] at hnone; exact absurd hnone (by simp)
  case case10 r lc lrk lln ll lr v hnlt hgt hsome ih =>
    obtain ⟨m, hm, htree, -⟩ := ih
    rw [hm] at hsome
    obtain rfl := Option.some.inj hsome
    simp at htree
  case case11 r lrk lln ll lr mrk mln ml mr hmr hll hnlt hgt hsome ih =>
    obtain ⟨m, hm, htree, hlist, hlen, hcached⟩ := ih
    rw [hm] at hsome
    obtain rfl := Option.some.inj hsome
    refine ⟨new .black (new .red ll ml) mr, ?_, by simp, ?_, ?_, ?_⟩
    · simp only [rank_tree] at hnlt hgt
      rcases r with v | ⟨rc, rrk, rln, rl, rr⟩ <;>
        simp only [rank_leaf, rank_tree] at hnlt hgt <;>
        simp [Node.merge, hm, hmr, hll, hnlt, hgt]
    · simp only [toList_new, toList_tree] at hlist ⊢
      rw [List.append_assoc, hlist, ← List.append_assoc]
    · intro hA hB
      simp only [lenOk_tree, Bool.and_eq_true] at hA
      have := hlen hA.2 hB
      simp only [lenOk_tree, Bool.and_eq_true] at this
      simp [this.1.2, this.2, hA.1.2]
    · intro hA hB
      simp only [cachedOk_tree, Bool.and_eq_true] at hA
      have := hcached hA.2 hB
      simp only [cachedOk_tree, Bool.and_eq_true] at this
      simp [this.1.2, this.2, hA.1.2]
  case case12 r lrk lln lr mrk mln ml mr hmr v hleafred hnlt hgt hsome ih =>
    simp at hleafred
  case case13 r lrk lln lr mrk mln ml mr hmr c2 lrk2 lln2 lll llr hll hnlt hgt hsome ih =>
    obtain ⟨m, hm, htree, hlist, hlen, hcached⟩ := ih
    rw [hm] at hsome
    obtain rfl := Option.some.inj hsome
    simp only [color_tree] at hll
    subst hll
    refine ⟨new .red (new .black lll llr) (new .black ml mr), ?_, by simp, ?_, ?_, ?_⟩
    · simp only [rank_tree] at hnlt hgt
      rcases r with v | ⟨rc, rrk, rln, rl, rr⟩ <;>
        simp only [rank_leaf, rank_tree] at hnlt hgt <;>
        simp [Node.merge, hm, hmr, hnlt, hgt]
    · simp only [toList_new, toList_tree] at hlist ⊢
      rw [hlist]
      simp [List.append_assoc]
    · intro hA hB
      simp only [lenOk_tree, Bool.and_eq_true] at hA
      have := hlen hA.2 hB
      have h2 := hA.1.2
      simp only [lenOk_tree, Bool.and_eq_true] at this h2
      simp [this.1.2, this.2, h2.1.2, h2.2]
    · intro hA hB
      simp only [cachedOk_tree, Bool.and_eq_true] at hA
      have := hcached hA.2 hB
      have h2 := hA.1.2
      simp only [cachedOk_tree, Bool.and_eq_true] at this h2
      simp [this.1.2, this.2, h2.1.2, h2.2]
  case case14 r lrk lln ll lr mrk mln ml mr lc mc hcon hnlt hgt hsome ih =>
    obtain ⟨m, hm, htree, hlist, hlen, hcached⟩ := ih
    rw [hm] at hsome
    obtain rfl := Option.some.inj hsome
    refine ⟨new lc ll (Node.tree mc mrk mln ml mr), ?_, by simp, ?_, ?_, ?_⟩
    · simp only [rank_tree] at hnlt hgt
      rcases lc <;> rcases hmrc : mr.color <;> rcases mc <;>
        first
          | exact absurd rfl (fun h => hcon rfl hmrc h)
          | (rcases r with v | ⟨rc, rrk, rln, rl, rr⟩ <;>
              simp only [rank_leaf, rank_tree] at hnlt hgt <;>
              simp [Node.merge, hm, hmrc, hnlt, hgt])
    · simp only [toList_new, toList_tree] at hlist ⊢
      rw [hlist]
      simp [List.append_assoc]
    · intro hA hB
      simp only [lenOk_tree, Bool.and_eq_true] at hA
      have := hlen hA.2 hB
      simp [this, hA.1.2]
    · intro hA hB
      simp only [cachedOk_tree, Bool.and_eq_true] at hA
      have := hcached hA.2 hB
      simp [this, hA.1.2]
  case case15 l r hnlt hngt =>
    refine ⟨new .red l r, ?_, by simp, by simp, by simp +contextual, by simp +contextual⟩
    rcases l with v | ⟨lc, lrk, lln, ll, lr⟩ <;> rcases r with w | ⟨rc, rrk, rln, rl, rr⟩ <;>
      simp only [rank_leaf, rank_tree] at hnlt hngt <;>
      simp [Node.merge, hnlt, hngt]

end Node

namespace Node

variable {α : Type u}

theorem split_spec (t : Node α) : ∀ (i : Nat), t.lenOk = true → 0 < i → i < t.len →
    ∃ l r, t.split i = some (l, r) ∧
      l.toList = t.toList.take i ∧ r.toList = t.toList.drop i ∧
      l.lenOk = true ∧ r.lenOk = true ∧
      l.color = Color.black ∧ r.color = Color.black ∧
      (t.cachedOk = true → l.cachedOk = true ∧ r.cachedOk = true) := by
  induction t with
  | leaf v => intro i _ h0 h1; simp at h1; omega
  | tree c rk ln l r ihl ihr =>
    intro i hlen h0 hi
    simp only [lenOk_tree, Bool.and_eq_true, decide_eq_true_eq] at hlen
    obtain ⟨⟨hln, hl⟩, hr⟩ := hlen
    simp only [len_tree] at hi
    have hllen : l.toList.length = l.len := (len_eq_length_toList hl).symm
    have hrlen : r.toList.length = r.len := (len_eq_length_toList hr).symm
    rcases Nat.lt_trichotomy i l.len with hc | hc | hc
    · -- i < l.len : split the left child, merge its right part with r
      obtain ⟨ll, lr, hsp, hllst, hlrst, hllok, hlrok, hllc, hlrc, hcach⟩ :=
        ihl i hl h0 hc
      obtain ⟨m, hm, -, hmlist, hmlen, hmcached⟩ := merge_spec lr r
      refine ⟨ll, m.toBlack, ?_, ?_, ?_, hllok, lenOk_toBlack (hmlen hlrok hr), hllc,
        color_toBlack m, ?_⟩
      · simp only [split, if_pos hc, hsp, hm]
      · rw [hllst, toList_tree, List.take_append_of_le_length (by omega)]
      · rw [toList_toBlack, hmlist, hlrst, toList_tree,
          List.drop_append_of_le_length (by omega)]
      · intro hcok
        simp only [cachedOk_tree, Bool.and_eq_true] at hcok
        obtain ⟨hclr, hcl⟩ := hcach hcok.1.2
        exact ⟨hclr, cachedOk_toBlack (hmcached hcl hcok.2)⟩
    · -- i = l.len : the two children are the answer
      subst hc
      refine ⟨l.toBlack, r.toBlack, ?_, ?_, ?_, lenOk_toBlack hl, lenOk_toBlack hr,
        color_toBlack l, color_toBlack r, ?_⟩
      · simp [split]
      · rw [toList_toBlack, toList_tree, List.take_left' hllen]
      · rw [toList_toBlack, toList_tree, List.drop_left' hllen]
      · intro hcok
        simp only [cachedOk_tree, Bool.and_eq_true] at hcok
        exact ⟨cachedOk_toBlack hcok.1.2, cachedOk_toBlack hcok.2⟩
    · -- i > l.len : split the right child, merge l with its left part
      obtain ⟨rl, rr, hsp, hrlst, hrrst, hrlok, hrrok, hrlc, hrrc, hcach⟩ :=
        ihr (i - l.len) hr (by omega) (by omega)
      obtain ⟨m, hm, -, hmlist, hmlen, hmcached⟩ := merge_spec l rl
      refine ⟨m.toBlack, rr, ?_, ?_, ?_, lenOk_toBlack (hmlen hl hrlok), hrrok,
        color_toBlack m, hrrc, ?_⟩
      · have hnotlt : ¬ i < l.len := by omega
        simp only [split, if_neg hnotlt, if_pos hc, hsp, hm]
      · rw [toList_toBlack, hmlist, hrlst, toList_tree,
          List.take_append_eq_append_take,
          List.take_of_length_le (show l.toList.length ≤ i by omega), hllen]
      · rw [hrrst, toList_tree, List.drop_append_eq_append_drop,
          List.drop_of_length_le (show l.toList.length ≤ i by omega), hllen,
          List.nil_append]
      · intro hcok
        simp only [cachedOk_tree, Bool.and_eq_true] at hcok
        obtain ⟨hcrl, hcr⟩ := hcach hcok.2
        exact ⟨cachedOk_toBlack (hmcached hcok.1.2 hcrl), hcr⟩

end Node

namespace Node

variable {α : Type u}

theorem index_get (t : Node α) : ∀ (i : Nat), t.lenOk = true → i < t.len →
    t.toList[i]? = some (t.index i) := by
  induction t with
  | leaf v =>
    intro i _ hi
    simp only [len_leaf] at hi
    interval_cases i
    simp [index]
  | tree c rk ln l r ihl ihr =>
    intro i hlen hi
    simp only [lenOk_tree, Bool.and_eq_true, decide_eq_true_eq] at hlen
    obtain ⟨⟨hln, hl⟩, hr⟩ := hlen
    simp only [len_tree] at hi
    have hllen : l.toList.length = l.len := (len_eq_length_toList hl).symm
    by_cases hc : i < l.len
    · rw [toList_tree, List.getElem?_append_left (by omega), ihl i hl hc]
      simp [index, hc]
    · rw [toList_tree, List.getElem?_append_right (by omega), hllen,
        ihr (i - l.len) hr (by omega)]
      simp [index, hc]

end Node

namespace PersistentLazyRBTree

variable {α : Type u}

@[simp] theorem root_mk (o : Option (Node α)) :
    (⟨o⟩ : PersistentLazyRBTree α).root = o := rfl

@[simp] theorem toList_mk_none : (⟨none⟩ : PersistentLazyRBTree α).toList = [] := rfl

@[simp] theorem toList_mk_some (n : Node α) :
    (⟨some n⟩ : PersistentLazyRBTree α).toList = n.toList := rfl

@[simp] theorem len_mk_none : (⟨none⟩ : PersistentLazyRBTree α).len = 0 := rfl

@[simp] theorem len_mk_some (n : Node α) :
    (⟨some n⟩ : PersistentLazyRBTree α).len = n.len := rfl

@[simp] theorem lenOk_mk_none : (⟨none⟩ : PersistentLazyRBTree α).lenOk = true := rfl

@[simp] theorem lenOk_mk_some (n : Node α) :
    (⟨some n⟩ : PersistentLazyRBTree α).lenOk = n.lenOk := rfl

@[simp] theorem cachedOk_mk_none : (⟨none⟩ : PersistentLazyRBTree α).cachedOk = true := rfl

@[simp] theorem cachedOk_mk_some (n : Node α) :
    (⟨some n⟩ : PersistentLazyRBTree α).cachedOk = n.cachedOk := rfl

@[simp] theorem rootBlack_mk_none : (⟨none⟩ : PersistentLazyRBTree α).rootBlack = true := rfl

@[simp] theorem rootBlack_mk_some (n : Node α) :
    (⟨some n⟩ : PersistentLazyRBTree α).rootBlack = decide (n.color = Color.black) := rfl

@[simp] theorem new_eq_mk_none : (new : PersistentLazyRBTree α) = ⟨none⟩ := rfl

theorem seqLen_eq {s : PersistentLazyRBTree α} (h : s.lenOk = true) :
    s.len = s.toList.length := by
  rcases s with ⟨_ | n⟩
  · rfl
  · exact Node.len_eq_length_toList (by simpa using h)

theorem root_some_of_len_pos {s : PersistentLazyRBTree α} (h : 0 < s.len) :
    ∃ n, s.root = some n := by
  rcases s with ⟨_ | n⟩
  · simp at h
  · exact ⟨n, rfl⟩

theorem seqIndex_spec {s : PersistentLazyRBTree α} {i : Nat} (h : s.lenOk = true)
    (hi : i < s.len) : s.index i = s.toList[i]? := by
  rcases s with ⟨_ | n⟩
  · simp at hi
  · simp only [lenOk_mk_some] at h
    simp only [len_mk_some] at hi
    simp only [index, len_mk_some, root_mk, if_pos hi, toList_mk_some]
    exact (Node.index_get n i h hi).symm

theorem seqSplit_spec (s : PersistentLazyRBTree α) (i : Nat) (h : s.lenOk = true)
    (hi : i ≤ s.len) :
    ∃ l r, s.split i = some (l, r) ∧
      l.toList = s.toList.take i ∧ r.toList = s.toList.drop i ∧
      l.lenOk = true ∧ r.lenOk = true ∧
      (s.rootBlack = true → l.rootBlack = true ∧ r.rootBlack = true) ∧
      (s.cachedOk = true → l.cachedOk = true ∧ r.cachedOk = true) := by
  by_cases h0 : i = 0
  · subst h0
    exact ⟨new, s, by simp [split], by simp, by simp, by simp, h, fun hb => ⟨by simp, hb⟩,
      fun hc => ⟨by simp, hc⟩⟩
  · by_cases hlen : i = s.len
    · subst hlen
      refine ⟨s, new, ?_, ?_, ?_, h, by simp, fun hb => ⟨hb, by simp⟩, fun hc => ⟨hc, by simp⟩⟩
      · simp [split, h0]
      · rw [List.take_of_length_le (by rw [← seqLen_eq h])]
      · rw [List.drop_of_length_le (by rw [← seqLen_eq h])]; simp
    · obtain ⟨n, hn⟩ := root_some_of_len_pos (s := s) (by omega)
      rcases s with ⟨root⟩
      simp only [root_mk] at hn
      subst hn
      simp only [lenOk_mk_some] at h
      simp only [len_mk_some] at hi hlen
      obtain ⟨l, r, hsp, hlt, hrt, hlok, hrok, hlc, hrc, hcach⟩ :=
        Node.split_spec n i h (by omega) (by omega)
      refine ⟨⟨some l⟩, ⟨some r⟩, ?_, by simpa using hlt, by simpa using hrt,
        by simpa using hlok, by simpa using hrok, ?_, ?_⟩
      · simp only [split, len_mk_some, if_pos hi, root_mk, hsp]
        simp [h0, hlen]
      · intro hb
        constructor <;> simp [hlc, hrc]
      · intro hc
        simp only [cachedOk_mk_some] at hc
        obtain ⟨h1, h2⟩ := hcach hc
        exact ⟨by simpa using h1, by simpa using h2⟩

theorem seqMerge_spec (a b : PersistentLazyRBTree α) :
    ∃ m, merge a b = some m ∧ m.toList = a.toList ++ b.toList ∧
      (a.lenOk = true → b.lenOk = true → m.lenOk = true) ∧
      (a.cachedOk = true → b.cachedOk = true → m.cachedOk = true) ∧
      (a.root = none → m = b) ∧ (b.root = none → m = a) ∧
      (a.root ≠ none → b.root ≠ none → m.rootBlack = true) := by
  rcases a with ⟨_ | an⟩
  · refine ⟨b, by simp [merge], by simp, fun _ hb => hb, fun _ hb => hb,
      fun _ => rfl, ?_, fun ha _ => absurd rfl ha⟩
    rintro rfl'
    rcases b with ⟨_ | bn⟩
    · rfl
    · simp at rfl'
  · rcases b with ⟨_ | bn⟩
    · exact ⟨⟨some an⟩, by simp [merge], by simp, fun ha _ => ha, fun ha _ => ha,
        by simp, fun _ => rfl, fun _ hb => absurd rfl hb⟩
    · obtain ⟨m, hm, -, hlist, hlen, hcached⟩ := Node.merge_spec an bn
      refine ⟨⟨some m.toBlack⟩, ?_, ?_, ?_, ?_, by simp, by simp, ?_⟩
      · simp only [merge, root_mk, hm]
      · simp [hlist]
      · intro ha hb
        simp only [lenOk_mk_some] at ha hb ⊢
        exact Node.lenOk_toBlack (hlen ha hb)
      · intro ha hb
        simp only [cachedOk_mk_some] at ha hb ⊢
        exact Node.cachedOk_toBlack (hcached ha hb)
      · intro _ _
        simp

end PersistentLazyRBTree

namespace PersistentLazyRBTree

variable {α : Type u}

theorem root_ne_none_of_toList {s : PersistentLazyRBTree α} (h : s.toList ≠ []) :
    s.root ≠ none := by
  rcases s with ⟨_ | n⟩
  · simp at h
  · simp

theorem seqInsert_spec (s : PersistentLazyRBTree α) (i : Nat) (v : α) (h : s.lenOk = true)
    (hi : i ≤ s.len) :
    ∃ t, s.insert i v = some t ∧
      t.toList = s.toList.take i ++ v :: s.toList.drop i ∧
      t.lenOk = true ∧ (s.cachedOk = true → t.cachedOk = true) ∧ t.rootBlack = true := by
  obtain ⟨l, r, hsp, hlt, hrt, hlok, hrok, hblk, hcach⟩ := seqSplit_spec s i h hi
  obtain ⟨m1, hm1, hm1list, hm1len, hm1cached, hm1le, hm1re, hm1black⟩ :=
    seqMerge_spec l ⟨some (.leaf v)⟩
  obtain ⟨m2, hm2, hm2list, hm2len, hm2cached, hm2le, hm2re, hm2black⟩ := seqMerge_spec m1 r
  have hm1toList : m1.toList = s.toList.take i ++ [v] := by
    rw [hm1list, hlt]; rfl
  refine ⟨m2, ?_, ?_, ?_, ?_, ?_⟩
  · simp only [insert, if_pos hi, hsp, hm1, hm2]
  · rw [hm2list, hm1toList, hrt]
    simp
  · exact hm2len (hm1len hlok (by simp)) hrok
  · intro hc
    obtain ⟨hcl, hcr⟩ := hcach hc
    exact hm2cached (hm1cached hcl (by simp)) hcr
  · have hm1some : m1.root ≠ none := by
      apply root_ne_none_of_toList
      rw [hm1toList]
      simp
    by_cases hre : r.root = none
    · rw [hm2re hre]
      by_cases hle : l.root = none
      · rw [hm1le hle]; simp
      · exact hm1black hle (by simp)
    · exact hm2black hm1some hre
  
theorem seqErase_spec (s : PersistentLazyRBTree α) (i : Nat) (h : s.lenOk = true)
    (hi : i < s.len) :
    ∃ t, s.erase i = some t ∧
      t.toList = s.toList.take i ++ s.toList.drop (i + 1) ∧
      t.lenOk = true ∧ (s.cachedOk = true → t.cachedOk = true) ∧
      (s.rootBlack = true → t.rootBlack = true) := by
  obtain ⟨l, rest, hsp, hlt, hrest, hlok, hrestok, hblk, hcach⟩ :=
    seqSplit_spec s i h (Nat.le_of_lt hi)
  have hrestlen : 1 ≤ rest.len := by
    rw [seqLen_eq hrestok, hrest, List.length_drop, ← seqLen_eq h]
    omega
  obtain ⟨d, r, hsp2, hdt, hrt, hdok, hrok, hblk2, hcach2⟩ :=
    seqSplit_spec rest 1 hrestok hrestlen
  obtain ⟨m, hm, hmlist, hmlen, hmcached, hmle, hmre, hmblack⟩ := seqMerge_spec l r
  refine ⟨m, ?_, ?_, ?_, ?_, ?_⟩
  · simp only [erase, if_pos hi, hsp, hsp2, hm]
  · rw [hmlist, hlt, hrt, hrest, List.drop_drop]
  · exact hmlen hlok hrok
  · intro hc
    obtain ⟨hcl, hcrest⟩ := hcach hc
    exact hmcached hcl (hcach2 hcrest).2
  · intro hb
    obtain ⟨hbl, hbrest⟩ := hblk hb
    obtain ⟨-, hbr⟩ := hblk2 hbrest
    by_cases hre : r.root = none
    · rw [hmre hre]; exact hbl
    · by_cases hle : l.root = none
      · rw [hmle hle]; exact hbr
      · exact hmblack hle hre

end PersistentLazyRBTree

namespace PersistentLazyRBTree

variable {α : Type u}

theorem toList_ne_nil_of_root {s : PersistentLazyRBTree α} (h : s.root ≠ none) :
    s.toList ≠ [] := by
  rcases s with ⟨_ | n⟩
  · exact absurd rfl h
  · simpa using Node.toList_ne_nil n

theorem good_merge {a b : PersistentLazyRBTree α} (ha : Good a) (hb : Good b)
    {m : PersistentLazyRBTree α} (hm : merge a b = some m) : Good m := by
  obtain ⟨m', hm', hlist, hlen, hcached, -, -, hblack⟩ := seqMerge_spec a b
  rw [hm] at hm'
  obtain rfl := Option.some.inj hm'
  refine ⟨hlen ha.1 hb.1, hcached ha.2.1 hb.2.1, hblack ha.2.2.2 hb.2.2.2, ?_⟩
  apply root_ne_none_of_toList
  rw [hlist]
  simp [toList_ne_nil_of_root ha.2.2.2]

theorem toList_merge {a b m : PersistentLazyRBTree α} (hm : merge a b = some m) :
    m.toList = a.toList ++ b.toList := by
  obtain ⟨m', hm', hlist, -⟩ := seqMerge_spec a b
  rw [hm] at hm'
  obtain rfl := Option.some.inj hm'
  exact hlist

theorem pushItem_spec : ∀ (res : List (PersistentLazyRBTree α))
    (cur : PersistentLazyRBTree α), (∀ x ∈ res, Good x) → Good cur →
    ∃ res', pushItem res cur = some res' ∧ res' ≠ [] ∧ (∀ x ∈ res', Good x) ∧
      stackList res' = stackList res ++ cur.toList
  | [], cur => by
    intro _ hcur
    exact ⟨[cur], rfl, by simp, by simpa using hcur, by simp [stackList]⟩
  | last :: rest, cur => by
    intro hres hcur
    by_cases hlen : last.len = cur.len
    · have hlast : Good last := hres last (by simp)
      obtain ⟨c, hc, hclist, hclen, hccached, -, -, hcblack⟩ := seqMerge_spec last cur
      have hgc : Good c := good_merge hlast hcur hc
      obtain ⟨res', hres', hne, hgood, hstack⟩ :=
        pushItem_spec rest c (fun x hx => hres x (by simp [hx])) hgc
      refine ⟨res', ?_, hne, hgood, ?_⟩
      · simp only [pushItem, if_pos hlen, hc, hres']
      · rw [hstack, hclist, stackList, List.append_assoc]
    · refine ⟨cur :: last :: rest, ?_, by simp, ?_, by simp [stackList]⟩
      · simp only [pushItem, if_neg hlen]
      · intro x hx
        rcases List.mem_cons.mp hx with rfl | h
        · exact hcur
        · exact hres x h

theorem fromIterAux_spec : ∀ (items : List α) (res : List (PersistentLazyRBTree α)),
    (∀ x ∈ res, Good x) →
    ∃ res', fromIterAux items res = some res' ∧ (∀ x ∈ res', Good x) ∧
      stackList res' = stackList res ++ items ∧
      (res' = [] → items = [] ∧ res = [])
  | [], res => by
    intro hres
    exact ⟨res, rfl, hres, by simp, fun h => ⟨rfl, h⟩⟩
  | item :: rest, res => by
    intro hres
    obtain ⟨cur, hcur, hcurlist, hcurlen, hcurcached, hcurblack⟩ :=
      seqInsert_spec new 0 item (by simp) (by simp)
    have hgcur : Good cur := by
      refine ⟨hcurlen, hcurcached (by simp), hcurblack, ?_⟩
      apply root_ne_none_of_toList
      simp [hcurlist]
    obtain ⟨res2, hres2, hne2, hgood2, hstack2⟩ := pushItem_spec res cur hres hgcur
    obtain ⟨res', hres', hgood', hstack', hemp'⟩ := fromIterAux_spec rest res2 hgood2
    refine ⟨res', ?_, hgood', ?_, ?_⟩
    · simp only [fromIterAux, hcur, hres2, hres']
    · rw [hstack', hstack2, hcurlist]
      simp
    · intro h
      exact absurd ((hemp' h).2) hne2

theorem finalLoop_spec : ∀ (res : List (PersistentLazyRBTree α)), (∀ x ∈ res, Good x) →
    ∃ res', finalLoop res = some res' ∧ (∀ x ∈ res', Good x) ∧
      stackList res' = stackList res ∧ (res' = [] → res = []) ∧ res'.length ≤ 1 := by
  intro res
  induction res using finalLoop.induct with
  | case1 r l rest hnone =>
    intro hres
    have hl : Good l := hres l (by simp)
    have hr : Good r := hres r (by simp)
    obtain ⟨m, hm, -⟩ := seqMerge_spec l r
    rw [hm] at hnone
    exact absurd hnone (by simp)
  | case2 r l rest m hm ih =>
    intro hres
    have hl : Good l := hres l (by simp)
    have hr : Good r := hres r (by simp)
    have hgm : Good m := good_merge hl hr hm
    obtain ⟨res', hres', hgood', hstack', hemp', hlen'⟩ :=
      ih (by intro x hx; rcases List.mem_cons.mp hx with rfl | hx2
             · exact hgm
             · exact hres x (by simp [hx2]))
    refine ⟨res', ?_, hgood', ?_, ?_, hlen'⟩
    · simp only [finalLoop, hm, hres']
    · rw [hstack', stackList, toList_merge hm, stackList, stackList, List.append_assoc]
    · intro h
      exact absurd (hemp' h) (by simp)
  | case3 xs h1 =>
    intro hres
    rcases xs with _ | ⟨x, _ | ⟨y, rest⟩⟩
    · exact ⟨[], by simp [finalLoop], by simp, rfl, fun h => h, by simp⟩
    · exact ⟨[x], by simp [finalLoop], hres, rfl, fun h => by simp at h, by simp⟩
    · exact (h1 _ _ _ rfl).elim

theorem fromIter_spec (items : List α) (hne : items ≠ []) :
    ∃ t, fromIter items = some t ∧ t.toList = items ∧ Good t := by
  obtain ⟨res, hres, hgood, hstack, hemp⟩ := fromIterAux_spec items [] (by simp)
  obtain ⟨res', hres', hgood', hstack', hemp', hlen'⟩ := finalLoop_spec res hgood
  match res', hlen' with
  | [], _ =>
    exact absurd ((hemp (hemp' rfl)).1) hne
  | [t], _ =>
    refine ⟨t, ?_, ?_, hgood' t (by simp)⟩
    · simp only [fromIter, hres, hres']
    · have := hstack'.trans hstack
      simpa [stackList] using this

theorem fromIter_nil : fromIter ([] : List α) = none := by
  simp [fromIter, fromIterAux, finalLoop]

end PersistentLazyRBTree

namespace PersistentLazyRBTree

variable {α : Type u}

/-- Every reachable sequence has consistent cached fields and a black root. -/
theorem reachable_inv {s : PersistentLazyRBTree α} (h : Reachable s) :
    s.lenOk = true ∧ s.cachedOk = true ∧ s.rootBlack = true := by
  induction h with
  | new => simp
  | @insert s i v t hs hi hins ih =>
    obtain ⟨t', ht', -, hlen, hcached, hblack⟩ := seqInsert_spec s i v ih.1 hi
    rw [hins] at ht'
    obtain rfl := Option.some.inj ht'
    exact ⟨hlen, hcached ih.2.1, hblack⟩
  | @erase s i t hs hi hera ih =>
    obtain ⟨t', ht', -, hlen, hcached, hblack⟩ := seqErase_spec s i ih.1 hi
    rw [hera] at ht'
    obtain rfl := Option.some.inj ht'
    exact ⟨hlen, hcached ih.2.1, hblack ih.2.2⟩
  | @merge a b t ha hb hm iha ihb =>
    obtain ⟨t', ht', -, hlen, hcached, hle, hre, hblack⟩ := seqMerge_spec a b
    rw [hm] at ht'
    obtain rfl := Option.some.inj ht'
    refine ⟨hlen iha.1 ihb.1, hcached iha.2.1 ihb.2.1, ?_⟩
    by_cases hae : a.root = none
    · rw [hle hae]; exact ihb.2.2
    · by_cases hbe : b.root = none
      · rw [hre hbe]; exact iha.2.2
      · exact hblack hae hbe
  | @splitLeft s i l r hs hi hsp ih =>
    obtain ⟨l', r', hsp', -, -, hlok, -, hblk, hcach⟩ := seqSplit_spec s i ih.1 hi
    rw [hsp] at hsp'
    obtain ⟨rfl, rfl⟩ := Prod.mk.injEq .. ▸ Option.some.inj hsp'
    exact ⟨hlok, (hcach ih.2.1).1, (hblk ih.2.2).1⟩
  | @splitRight s i l r hs hi hsp ih =>
    obtain ⟨l', r', hsp', -, -, -, hrok, hblk, hcach⟩ := seqSplit_spec s i ih.1 hi
    rw [hsp] at hsp'
    obtain ⟨rfl, rfl⟩ := Prod.mk.injEq .. ▸ Option.some.inj hsp'
    exact ⟨hrok, (hcach ih.2.1).2, (hblk ih.2.2).2⟩
  | @fromIter items t hfi =>
    rcases items with _ | ⟨x, rest⟩
    · rw [fromIter_nil] at hfi
      exact absurd hfi (by simp)
    · obtain ⟨t', ht', -, hgood⟩ := fromIter_spec (x :: rest) (by simp)
      rw [hfi] at ht'
      obtain rfl := Option.some.inj ht'
      exact ⟨hgood.1, hgood.2.1, hgood.2.2.1⟩

end PersistentLazyRBTree



theorem cxStep1 : cxT0.insert 0 1 = some cxT1 := by
  simp [cxT0, cxT1, PersistentLazyRBTree.insert, PersistentLazyRBTree.erase, PersistentLazyRBTree.split, PersistentLazyRBTree.merge, PersistentLazyRBTree.len, PersistentLazyRBTree.new, PersistentLazyRBTree.fromIter, PersistentLazyRBTree.fromIterAux, PersistentLazyRBTree.pushItem, PersistentLazyRBTree.finalLoop, Node.merge, Node.split, Node.new, Node.toBlack, Node.rank, Node.len, Node.color]


theorem cxStep2 : cxT1.insert 0 2 = some cxT2 := by
  simp [cxT1, cxT2, PersistentLazyRBTree.insert, PersistentLazyRBTree.erase, PersistentLazyRBTree.split, PersistentLazyRBTree.merge, PersistentLazyRBTree.len, PersistentLazyRBTree.new, PersistentLazyRBTree.fromIter, PersistentLazyRBTree.fromIterAux, PersistentLazyRBTree.pushItem, PersistentLazyRBTree.finalLoop, Node.merge, Node.split, Node.new, Node.toBlack, Node.rank, Node.len, Node.color]


theorem cxStep3 : cxT2.insert 1 3 = some cxT3 := by
  simp [cxT2, cxT3, PersistentLazyRBTree.insert, PersistentLazyRBTree.erase, PersistentLazyRBTree.split, PersistentLazyRBTree.merge, PersistentLazyRBTree.len, PersistentLazyRBTree.new, PersistentLazyRBTree.fromIter, PersistentLazyRBTree.fromIterAux, PersistentLazyRBTree.pushItem, PersistentLazyRBTree.finalLoop, Node.merge, Node.split, Node.new, Node.toBlack, Node.rank, Node.len, Node.color]


theorem cxStep4 : cxT3.insert 1 4 = some cxT4 := by
  simp [cxT3, cxT4, PersistentLazyRBTree.insert, PersistentLazyRBTree.erase, PersistentLazyRBTree.split, PersistentLazyRBTree.merge, PersistentLazyRBTree.len, PersistentLazyRBTree.new, PersistentLazyRBTree.fromIter, PersistentLazyRBTree.fromIterAux, PersistentLazyRBTree.pushItem, PersistentLazyRBTree.finalLoop, Node.merge, Node.split, Node.new, Node.toBlack, Node.rank, Node.len, Node.color]


theorem cxStep5 : cxT4.insert 3 5 = some cxT5 := by
  simp [cxT4, cxT5, PersistentLazyRBTree.insert, PersistentLazyRBTree.erase, PersistentLazyRBTree.split, PersistentLazyRBTree.merge, PersistentLazyRBTree.len, PersistentLazyRBTree.new, PersistentLazyRBTree.fromIter, PersistentLazyRBTree.fromIterAux, PersistentLazyRBTree.pushItem, PersistentLazyRBTree.finalLoop, Node.merge, Node.split, Node.new, Node.toBlack, Node.rank, Node.len, Node.color]


theorem cxStep6 : cxT5.insert 1 6 = some cxT6 := by
  simp [cxT5, cxT6, PersistentLazyRBTree.insert, PersistentLazyRBTree.erase, PersistentLazyRBTree.split, PersistentLazyRBTree.merge, PersistentLazyRBTree.len, PersistentLazyRBTree.new, PersistentLazyRBTree.fromIter, PersistentLazyRBTree.fromIterAux, PersistentLazyRBTree.pushItem, PersistentLazyRBTree.finalLoop, Node.merge, Node.split, Node.new, Node.toBlack, Node.rank, Node.len, Node.color]


theorem cxStep7 : PersistentLazyRBTree.fromIter [7] = some cxT7 := by
  simp [cxT7, PersistentLazyRBTree.insert, PersistentLazyRBTree.erase, PersistentLazyRBTree.split, PersistentLazyRBTree.merge, PersistentLazyRBTree.len, PersistentLazyRBTree.new, PersistentLazyRBTree.fromIter, PersistentLazyRBTree.fromIterAux, PersistentLazyRBTree.pushItem, PersistentLazyRBTree.finalLoop, Node.merge, Node.split, Node.new, Node.toBlack, Node.rank, Node.len, Node.color]


theorem cxStep8 : PersistentLazyRBTree.merge cxT6 cxT7 = some cxT8 := by
  simp [cxT6, cxT7, cxT8, PersistentLazyRBTree.insert, PersistentLazyRBTree.erase, PersistentLazyRBTree.split, PersistentLazyRBTree.merge, PersistentLazyRBTree.len, PersistentLazyRBTree.new, PersistentLazyRBTree.fromIter, PersistentLazyRBTree.fromIterAux, PersistentLazyRBTree.pushItem, PersistentLazyRBTree.finalLoop, Node.merge, Node.split, Node.new, Node.toBlack, Node.rank, Node.len, Node.color]


theorem cxStep9 : cxT8.insert 3 8 = some cxT9 := by
  simp [cxT8, cxT9, PersistentLazyRBTree.insert, PersistentLazyRBTree.erase, PersistentLazyRBTree.split, PersistentLazyRBTree.merge, PersistentLazyRBTree.len, PersistentLazyRBTree.new, PersistentLazyRBTree.fromIter, PersistentLazyRBTree.fromIterAux, PersistentLazyRBTree.pushItem, PersistentLazyRBTree.finalLoop, Node.merge, Node.split, Node.new, Node.toBlack, Node.rank, Node.len, Node.color]


theorem cxStep10 : cxT9.insert 6 9 = some cxT10 := by
  simp [cxT9, cxT10, PersistentLazyRBTree.insert, PersistentLazyRBTree.erase, PersistentLazyRBTree.split, PersistentLazyRBTree.merge, PersistentLazyRBTree.len, PersistentLazyRBTree.new, PersistentLazyRBTree.fromIter, PersistentLazyRBTree.fromIterAux, PersistentLazyRBTree.pushItem, PersistentLazyRBTree.finalLoop, Node.merge, Node.split, Node.new, Node.toBlack, Node.rank, Node.len, Node.color]


theorem cxStep11 : cxT10.erase 0 = some cxT11 := by
  simp [cxT10, cxT11, PersistentLazyRBTree.insert, PersistentLazyRBTree.erase, PersistentLazyRBTree.split, PersistentLazyRBTree.merge, PersistentLazyRBTree.len, PersistentLazyRBTree.new, PersistentLazyRBTree.fromIter, PersistentLazyRBTree.fromIterAux, PersistentLazyRBTree.pushItem, PersistentLazyRBTree.finalLoop, Node.merge, Node.split, Node.new, Node.toBlack, Node.rank, Node.len, Node.color]


theorem cxStep12 : cxT11.erase 4 = some cxT12 := by
  simp [cxT11, cxT12, PersistentLazyRBTree.insert, PersistentLazyRBTree.erase, PersistentLazyRBTree.split, PersistentLazyRBTree.merge, PersistentLazyRBTree.len, PersistentLazyRBTree.new, PersistentLazyRBTree.fromIter, PersistentLazyRBTree.fromIterAux, PersistentLazyRBTree.pushItem, PersistentLazyRBTree.finalLoop, Node.merge, Node.split, Node.new, Node.toBlack, Node.rank, Node.len, Node.color]


theorem cxStep13 : PersistentLazyRBTree.fromIter [10, 11, 12] = some cxT13 := by
  simp [cxT13, PersistentLazyRBTree.insert, PersistentLazyRBTree.erase, PersistentLazyRBTree.split, PersistentLazyRBTree.merge, PersistentLazyRBTree.len, PersistentLazyRBTree.new, PersistentLazyRBTree.fromIter, PersistentLazyRBTree.fromIterAux, PersistentLazyRBTree.pushItem, PersistentLazyRBTree.finalLoop, Node.merge, Node.split, Node.new, Node.toBlack, Node.rank, Node.len, Node.color]


theorem cxStep14 : PersistentLazyRBTree.merge cxT12 cxT13 = some cxT14 := by
  simp [cxT12, cxT13, cxT14, PersistentLazyRBTree.insert, PersistentLazyRBTree.erase, PersistentLazyRBTree.split, PersistentLazyRBTree.merge, PersistentLazyRBTree.len, PersistentLazyRBTree.new, PersistentLazyRBTree.fromIter, PersistentLazyRBTree.fromIterAux, PersistentLazyRBTree.pushItem, PersistentLazyRBTree.finalLoop, Node.merge, Node.split, Node.new, Node.toBlack, Node.rank, Node.len, Node.color]


theorem cxStep15 : cxT14.insert 9 13 = some cxT15 := by
  simp [cxT14, cxT15, PersistentLazyRBTree.insert, PersistentLazyRBTree.erase, PersistentLazyRBTree.split, PersistentLazyRBTree.merge, PersistentLazyRBTree.len, PersistentLazyRBTree.new, PersistentLazyRBTree.fromIter, PersistentLazyRBTree.fromIterAux, PersistentLazyRBTree.pushItem, PersistentLazyRBTree.finalLoop, Node.merge, Node.split, Node.new, Node.toBlack, Node.rank, Node.len, Node.color]


theorem cxStep16 : cxT15.erase 1 = some cxT16 := by
  simp [cxT15, cxT16, PersistentLazyRBTree.insert, PersistentLazyRBTree.erase, PersistentLazyRBTree.split, PersistentLazyRBTree.merge, PersistentLazyRBTree.len, PersistentLazyRBTree.new, PersistentLazyRBTree.fromIter, PersistentLazyRBTree.fromIterAux, PersistentLazyRBTree.pushItem, PersistentLazyRBTree.finalLoop, Node.merge, Node.split, Node.new, Node.toBlack, Node.rank, Node.len, Node.color]


theorem cxStep17 : cxT16.erase 5 = some cxT17 := by
  simp [cxT16, cxT17, PersistentLazyRBTree.insert, PersistentLazyRBTree.erase, PersistentLazyRBTree.split, PersistentLazyRBTree.merge, PersistentLazyRBTree.len, PersistentLazyRBTree.new, PersistentLazyRBTree.fromIter, PersistentLazyRBTree.fromIterAux, PersistentLazyRBTree.pushItem, PersistentLazyRBTree.finalLoop, Node.merge, Node.split, Node.new, Node.toBlack, Node.rank, Node.len, Node.color]


theorem cxStep18 : cxT17.insert 8 14 = some cxT18 := by
  simp [cxT17, cxT18, PersistentLazyRBTree.insert, PersistentLazyRBTree.erase, PersistentLazyRBTree.split, PersistentLazyRBTree.merge, PersistentLazyRBTree.len, PersistentLazyRBTree.new, PersistentLazyRBTree.fromIter, PersistentLazyRBTree.fromIterAux, PersistentLazyRBTree.pushItem, PersistentLazyRBTree.finalLoop, Node.merge, Node.split, Node.new, Node.toBlack, Node.rank, Node.len, Node.color]


theorem cxStep19 : cxT18.insert 9 15 = some cxT19 := by
  simp [cxT18, cxT19, PersistentLazyRBTree.insert, PersistentLazyRBTree.erase, PersistentLazyRBTree.split, PersistentLazyRBTree.merge, PersistentLazyRBTree.len, PersistentLazyRBTree.new, PersistentLazyRBTree.fromIter, PersistentLazyRBTree.fromIterAux, PersistentLazyRBTree.pushItem, PersistentLazyRBTree.finalLoop, Node.merge, Node.split, Node.new, Node.toBlack, Node.rank, Node.len, Node.color]


theorem cxStep20 : PersistentLazyRBTree.fromIter [16, 17, 18, 19, 20, 21, 22] = some cxT20 := by
  simp [cxT20, PersistentLazyRBTree.insert, PersistentLazyRBTree.erase, PersistentLazyRBTree.split, PersistentLazyRBTree.merge, PersistentLazyRBTree.len, PersistentLazyRBTree.new, PersistentLazyRBTree.fromIter, PersistentLazyRBTree.fromIterAux, PersistentLazyRBTree.pushItem, PersistentLazyRBTree.finalLoop, Node.merge, Node.split, Node.new, Node.toBlack, Node.rank, Node.len, Node.color]


theorem cxStep21 : PersistentLazyRBTree.merge cxT19 cxT20 = some cxT21 := by
  simp [cxT19, cxT20, cxT21, PersistentLazyRBTree.insert, PersistentLazyRBTree.erase, PersistentLazyRBTree.split, PersistentLazyRBTree.merge, PersistentLazyRBTree.len, PersistentLazyRBTree.new, PersistentLazyRBTree.fromIter, PersistentLazyRBTree.fromIterAux, PersistentLazyRBTree.pushItem, PersistentLazyRBTree.finalLoop, Node.merge, Node.split, Node.new, Node.toBlack, Node.rank, Node.len, Node.color]


theorem cxStep22 : PersistentLazyRBTree.fromIter [23, 24, 25, 26, 27, 28] = some cxT22 := by
  simp [cxT22, PersistentLazyRBTree.insert, PersistentLazyRBTree.erase, PersistentLazyRBTree.split, PersistentLazyRBTree.merge, PersistentLazyRBTree.len, PersistentLazyRBTree.new, PersistentLazyRBTree.fromIter, PersistentLazyRBTree.fromIterAux, PersistentLazyRBTree.pushItem, PersistentLazyRBTree.finalLoop, Node.merge, Node.split, Node.new, Node.toBlack, Node.rank, Node.len, Node.color]


theorem cxStep23 : PersistentLazyRBTree.merge cxT21 cxT22 = some cxT23 := by
  simp [cxT21, cxT22, cxT23, PersistentLazyRBTree.insert, PersistentLazyRBTree.erase, PersistentLazyRBTree.split, PersistentLazyRBTree.merge, PersistentLazyRBTree.len, PersistentLazyRBTree.new, PersistentLazyRBTree.fromIter, PersistentLazyRBTree.fromIterAux, PersistentLazyRBTree.pushItem, PersistentLazyRBTree.finalLoop, Node.merge, Node.split, Node.new, Node.toBlack, Node.rank, Node.len, Node.color]


theorem cxStep24 : PersistentLazyRBTree.fromIter [29] = some cxT24 := by
  simp [cxT24, PersistentLazyRBTree.insert, PersistentLazyRBTree.erase, PersistentLazyRBTree.split, PersistentLazyRBTree.merge, PersistentLazyRBTree.len, PersistentLazyRBTree.new, PersistentLazyRBTree.fromIter, PersistentLazyRBTree.fromIterAux, PersistentLazyRBTree.pushItem, PersistentLazyRBTree.finalLoop, Node.merge, Node.split, Node.new, Node.toBlack, Node.rank, Node.len, Node.color]


theorem cxStep25 : PersistentLazyRBTree.merge cxT23 cxT24 = some cxT25 := by
  simp [cxT23, cxT24, cxT25, PersistentLazyRBTree.insert, PersistentLazyRBTree.erase, PersistentLazyRBTree.split, PersistentLazyRBTree.merge, PersistentLazyRBTree.len, PersistentLazyRBTree.new, PersistentLazyRBTree.fromIter, PersistentLazyRBTree.fromIterAux, PersistentLazyRBTree.pushItem, PersistentLazyRBTree.finalLoop, Node.merge, Node.split, Node.new, Node.toBlack, Node.rank, Node.len, Node.color]


theorem cxStep26 : PersistentLazyRBTree.fromIter [30, 31, 32, 33] = some cxT26 := by
  simp [cxT26, PersistentLazyRBTree.insert, PersistentLazyRBTree.erase, PersistentLazyRBTree.split, PersistentLazyRBTree.merge, PersistentLazyRBTree.len, PersistentLazyRBTree.new, PersistentLazyRBTree.fromIter, PersistentLazyRBTree.fromIterAux, PersistentLazyRBTree.pushItem, PersistentLazyRBTree.finalLoop, Node.merge, Node.split, Node.new, Node.toBlack, Node.rank, Node.len, Node.color]


theorem cxStep27 : PersistentLazyRBTree.merge cxT25 cxT26 = some cxT27 := by
  simp [cxT25, cxT26, cxT27, PersistentLazyRBTree.insert, PersistentLazyRBTree.erase, PersistentLazyRBTree.split, PersistentLazyRBTree.merge, PersistentLazyRBTree.len, PersistentLazyRBTree.new, PersistentLazyRBTree.fromIter, PersistentLazyRBTree.fromIterAux, PersistentLazyRBTree.pushItem, PersistentLazyRBTree.finalLoop, Node.merge, Node.split, Node.new, Node.toBlack, Node.rank, Node.len, Node.color]


theorem cxStep28 : cxT27.split 15 = some (cxT28, ⟨some (.tree .black 3 14 (.tree .black 2 10 (.tree .red 2 5 (.tree .black 1 3 (.leaf 20) (.tree .red 1 2 (.leaf 21) (.leaf 22))) (.tree .black 1 2 (.leaf 23) (.leaf 24))) (.tree .red 2 5 (.tree .black 1 2 (.leaf 25) (.leaf 26)) (.tree .black 1 3 (.leaf 27) (.tree .red 1 2 (.leaf 28) (.leaf 29))))) (.tree .black 2 4 (.tree .black 1 2 (.leaf 30) (.leaf 31)) (.tree .black 1 2 (.leaf 32) (.leaf 33))))⟩) := by
  simp [cxT27, cxT28, PersistentLazyRBTree.insert, PersistentLazyRBTree.erase, PersistentLazyRBTree.split, PersistentLazyRBTree.merge, PersistentLazyRBTree.len, PersistentLazyRBTree.new, PersistentLazyRBTree.fromIter, PersistentLazyRBTree.fromIterAux, PersistentLazyRBTree.pushItem, PersistentLazyRBTree.finalLoop, Node.merge, Node.split, Node.new, Node.toBlack, Node.rank, Node.len, Node.color]


theorem cxStep29 : cxT27.split 15 = some (⟨some (.tree .black 3 15 (.tree .black 2 11 (.tree .red 2 5 (.tree .black 1 3 (.tree .red 1 2 (.leaf 6) (.leaf 8)) (.leaf 3)) (.tree .black 1 2 (.leaf 9) (.leaf 1))) (.tree .black 2 6 (.tree .black 1 2 (.leaf 10) (.leaf 11)) (.tree .black 1 4 (.tree .red 1 2 (.leaf 13) (.leaf 14)) (.tree .red 1 2 (.leaf 15) (.leaf 12))))) (.tree .black 2 4 (.tree .black 1 2 (.leaf 16) (.leaf 17)) (.tree .black 1 2 (.leaf 18) (.leaf 19))))⟩, cxT29) := by
  simp [cxT27, cxT29, PersistentLazyRBTree.insert, PersistentLazyRBTree.erase, PersistentLazyRBTree.split, PersistentLazyRBTree.merge, PersistentLazyRBTree.len, PersistentLazyRBTree.new, PersistentLazyRBTree.fromIter, PersistentLazyRBTree.fromIterAux, PersistentLazyRBTree.pushItem, PersistentLazyRBTree.finalLoop, Node.merge, Node.split, Node.new, Node.toBlack, Node.rank, Node.len, Node.color]


theorem cxStep30 : PersistentLazyRBTree.merge cxT28 cxT29 = some cxT30 := by
  simp [cxT28, cxT29, cxT30, PersistentLazyRBTree.insert, PersistentLazyRBTree.erase, PersistentLazyRBTree.split, PersistentLazyRBTree.merge, PersistentLazyRBTree.len, PersistentLazyRBTree.new, PersistentLazyRBTree.fromIter, PersistentLazyRBTree.fromIterAux, PersistentLazyRBTree.pushItem, PersistentLazyRBTree.finalLoop, Node.merge, Node.split, Node.new, Node.toBlack, Node.rank, Node.len, Node.color]


theorem cxStep31 : cxT30.erase 15 = some cxT31 := by
  simp [cxT30, cxT31, PersistentLazyRBTree.insert, PersistentLazyRBTree.erase, PersistentLazyRBTree.split, PersistentLazyRBTree.merge, PersistentLazyRBTree.len, PersistentLazyRBTree.new, PersistentLazyRBTree.fromIter, PersistentLazyRBTree.fromIterAux, PersistentLazyRBTree.pushItem, PersistentLazyRBTree.finalLoop, Node.merge, Node.split, Node.new, Node.toBlack, Node.rank, Node.len, Node.color]

theorem cxReach0 : PersistentLazyRBTree.Reachable cxT0 :=
  PersistentLazyRBTree.Reachable.new

theorem cxReach1 : PersistentLazyRBTree.Reachable cxT1 :=
  PersistentLazyRBTree.Reachable.insert cxReach0 (by decide) cxStep1

theorem cxReach2 : PersistentLazyRBTree.Reachable cxT2 :=
  PersistentLazyRBTree.Reachable.insert cxReach1 (by decide) cxStep2

theorem cxReach3 : PersistentLazyRBTree.Reachable cxT3 :=
  PersistentLazyRBTree.Reachable.insert cxReach2 (by decide) cxStep3

theorem cxReach4 : PersistentLazyRBTree.Reachable cxT4 :=
  PersistentLazyRBTree.Reachable.insert cxReach3 (by decide) cxStep4

theorem cxReach5 : PersistentLazyRBTree.Reachable cxT5 :=
  PersistentLazyRBTree.Reachable.insert cxReach4 (by decide) cxStep5

theorem cxReach6 : PersistentLazyRBTree.Reachable cxT6 :=
  PersistentLazyRBTree.Reachable.insert cxReach5 (by decide) cxStep6

theorem cxReach7 : PersistentLazyRBTree.Reachable cxT7 :=
  PersistentLazyRBTree.Reachable.fromIter cxStep7

theorem cxReach8 : PersistentLazyRBTree.Reachable cxT8 :=
  PersistentLazyRBTree.Reachable.merge cxReach6 cxReach7 cxStep8

theorem cxReach9 : PersistentLazyRBTree.Reachable cxT9 :=
  PersistentLazyRBTree.Reachable.insert cxReach8 (by decide) cxStep9

theorem cxReach10 : PersistentLazyRBTree.Reachable cxT10 :=
  PersistentLazyRBTree.Reachable.insert cxReach9 (by decide) cxStep10

theorem cxReach11 : PersistentLazyRBTree.Reachable cxT11 :=
  PersistentLazyRBTree.Reachable.erase cxReach10 (by decide) cxStep11

theorem cxReach12 : PersistentLazyRBTree.Reachable cxT12 :=
  PersistentLazyRBTree.Reachable.erase cxReach11 (by decide) cxStep12

theorem cxReach13 : PersistentLazyRBTree.Reachable cxT13 :=
  PersistentLazyRBTree.Reachable.fromIter cxStep13

theorem cxReach14 : PersistentLazyRBTree.Reachable cxT14 :=
  PersistentLazyRBTree.Reachable.merge cxReach12 cxReach13 cxStep14

theorem cxReach15 : PersistentLazyRBTree.Reachable cxT15 :=
  PersistentLazyRBTree.Reachable.insert cxReach14 (by decide) cxStep15

theorem cxReach16 : PersistentLazyRBTree.Reachable cxT16 :=
  PersistentLazyRBTree.Reachable.erase cxReach15 (by decide) cxStep16

theorem cxReach17 : PersistentLazyRBTree.Reachable cxT17 :=
  PersistentLazyRBTree.Reachable.erase cxReach16 (by decide) cxStep17

theorem cxReach18 : PersistentLazyRBTree.Reachable cxT18 :=
  PersistentLazyRBTree.Reachable.insert cxReach17 (by decide) cxStep18

theorem cxReach19 : PersistentLazyRBTree.Reachable cxT19 :=
  PersistentLazyRBTree.Reachable.insert cxReach18 (by decide) cxStep19

theorem cxReach20 : PersistentLazyRBTree.Reachable cxT20 :=
  PersistentLazyRBTree.Reachable.fromIter cxStep20

theorem cxReach21 : PersistentLazyRBTree.Reachable cxT21 :=
  PersistentLazyRBTree.Reachable.merge cxReach19 cxReach20 cxStep21

theorem cxReach22 : PersistentLazyRBTree.Reachable cxT22 :=
  PersistentLazyRBTree.Reachable.fromIter cxStep22

theorem cxReach23 : PersistentLazyRBTree.Reachable cxT23 :=
  PersistentLazyRBTree.Reachable.merge cxReach21 cxReach22 cxStep23

theorem cxReach24 : PersistentLazyRBTree.Reachable cxT24 :=
  PersistentLazyRBTree.Reachable.fromIter cxStep24

theorem cxReach25 : PersistentLazyRBTree.Reachable cxT25 :=
  PersistentLazyRBTree.Reachable.merge cxReach23 cxReach24 cxStep25

theorem cxReach26 : PersistentLazyRBTree.Reachable cxT26 :=
  PersistentLazyRBTree.Reachable.fromIter cxStep26

theorem cxReach27 : PersistentLazyRBTree.Reachable cxT27 :=
  PersistentLazyRBTree.Reachable.merge cxReach25 cxReach26 cxStep27

theorem cxReach28 : PersistentLazyRBTree.Reachable cxT28 :=
  PersistentLazyRBTree.Reachable.splitLeft cxReach27 (by decide) cxStep28

theorem cxReach29 : PersistentLazyRBTree.Reachable cxT29 :=
  PersistentLazyRBTree.Reachable.splitRight cxReach27 (by decide) cxStep29

theorem cxReach30 : PersistentLazyRBTree.Reachable cxT30 :=
  PersistentLazyRBTree.Reachable.merge cxReach28 cxReach29 cxStep30

theorem cxReach31 : PersistentLazyRBTree.Reachable cxT31 :=
  PersistentLazyRBTree.Reachable.erase cxReach30 (by decide) cxStep31


theorem c2aStep1 : PersistentLazyRBTree.new.insert 0 0 = some c2aT1 := by
  simp [c2aT1, PersistentLazyRBTree.insert, PersistentLazyRBTree.split,
    PersistentLazyRBTree.merge, PersistentLazyRBTree.len, PersistentLazyRBTree.new,
    Node.merge, Node.split, Node.new, Node.toBlack, Node.rank, Node.len, Node.color]

theorem c2aStep2 : c2aT1.insert 1 1 = some c2aT2 := by
  simp [c2aT1, c2aT2, PersistentLazyRBTree.insert, PersistentLazyRBTree.split,
    PersistentLazyRBTree.merge, PersistentLazyRBTree.len, PersistentLazyRBTree.new,
    Node.merge, Node.split, Node.new, Node.toBlack, Node.rank, Node.len, Node.color]

theorem c2aStep3 : c2aT2.insert 2 2 = some c2aT3 := by
  simp [c2aT2, c2aT3, PersistentLazyRBTree.insert, PersistentLazyRBTree.split,
    PersistentLazyRBTree.merge, PersistentLazyRBTree.len, PersistentLazyRBTree.new,
    Node.merge, Node.split, Node.new, Node.toBlack, Node.rank, Node.len, Node.color]

theorem c2aReach3 : PersistentLazyRBTree.Reachable c2aT3 :=
  PersistentLazyRBTree.Reachable.insert
    (PersistentLazyRBTree.Reachable.insert
      (PersistentLazyRBTree.Reachable.insert PersistentLazyRBTree.Reachable.new
        (by decide) c2aStep1)
      (by decide) c2aStep2)
    (by decide) c2aStep3

namespace PersistentLazyRBTree

variable {α : Type u}

theorem seqIndex_none {s : PersistentLazyRBTree α} {i : Nat} (h : ¬ i < s.len) :
    s.index i = none := by
  simp [index, h]

end PersistentLazyRBTree

open PersistentLazyRBTree in
/-- C1: for every sequence `s` and every index `i` with `0 ≤ i ≤ len s`,
merging the two components returned by `split s i` yields a sequence
element-wise identical to `s`: same length and same element at every
position. -/
theorem claimC1 {α : Type u} (s : PersistentLazyRBTree α) (i : Nat)
    (h : s.lenOk = true) (hi : i ≤ s.len) :
    ∃ l r m, s.split i = some (l, r) ∧ PersistentLazyRBTree.merge l r = some m ∧
      m.toList = s.toList ∧ m.len = s.len ∧
      ∀ j, j < s.len → m.index j = s.index j := by
  obtain ⟨l, r, hsp, hlt, hrt, hlok, hrok, -, -⟩ := seqSplit_spec s i h hi
  obtain ⟨m, hm, hmlist, hmlen, -, -, -, -⟩ := seqMerge_spec l r
  have hlist : m.toList = s.toList := by
    rw [hmlist, hlt, hrt, List.take_append_drop]
  have hmok : m.lenOk = true := hmlen hlok hrok
  have hlen : m.len = s.len := by
    rw [seqLen_eq hmok, seqLen_eq h, hlist]
  refine ⟨l, r, m, hsp, hm, hlist, hlen, fun j hj => ?_⟩
  rw [seqIndex_spec hmok (by omega), seqIndex_spec h hj, hlist]

/-- Witness for C1 at a concrete two-element sequence split at 1. -/
theorem claimC1_witness :
    (⟨some (.tree .black 1 2 (.leaf 0) (.leaf 1))⟩ : PersistentLazyRBTree Nat).lenOk = true ∧
    1 ≤ (⟨some (.tree .black 1 2 (.leaf 0) (.leaf 1))⟩ : PersistentLazyRBTree Nat).len ∧
    (∃ l r m, (⟨some (.tree .black 1 2 (.leaf 0) (.leaf 1))⟩ : PersistentLazyRBTree Nat).split 1 =
        some (l, r) ∧
      PersistentLazyRBTree.merge l r = some m ∧
      m.toList = (⟨some (.tree .black 1 2 (.leaf 0) (.leaf 1))⟩ : PersistentLazyRBTree Nat).toList ∧
      m.len = (⟨some (.tree .black 1 2 (.leaf 0) (.leaf 1))⟩ : PersistentLazyRBTree Nat).len ∧
      ∀ j, j < (⟨some (.tree .black 1 2 (.leaf 0) (.leaf 1))⟩ : PersistentLazyRBTree Nat).len →
        m.index j = (⟨some (.tree .black 1 2 (.leaf 0) (.leaf 1))⟩ : PersistentLazyRBTree Nat).index j) :=
  ⟨by decide, by decide,
    claimC1 (⟨some (.tree .black 1 2 (.leaf 0) (.leaf 1))⟩ : PersistentLazyRBTree Nat) 1
      (by decide) (by decide)⟩

open PersistentLazyRBTree in
/-- C2 (amended): every sequence reachable from the empty sequence through
the public operations with in-range indices has, at every internal node,
cached rank and size fields equal to their recursive recomputation
(`rank = left.rank + 1` if the left child is black else `left.rank`;
`size = left.size + right.size`; a leaf has size 1 and rank 0). -/
theorem claimC2_amended {α : Type u} {s : PersistentLazyRBTree α}
    (h : PersistentLazyRBTree.Reachable s) : s.cachedOk = true :=
  (reachable_inv h).2.1

/-- Witness for the amended C2 at a concrete reachable three-element
sequence. -/
theorem claimC2_amended_witness :
    PersistentLazyRBTree.Reachable c2aT3 ∧ c2aT3.cachedOk = true :=
  ⟨c2aReach3, claimC2_amended c2aReach3⟩

/-- C2 counterexample: the claim as stated is false. The reachable
sequence obtained by appending 0, 1, 2 to the empty sequence violates the
equal-rank ("black-balance") conjunct, and the reachable sequence `cxT31`
(built by 31 public operations) violates the red-rule conjunct. -/
theorem claimC2_counterexample :
    PersistentLazyRBTree.Reachable c2aT3 ∧ c2aT3.seqEqRankOk = false ∧
    PersistentLazyRBTree.Reachable cxT31 ∧ cxT31.seqRedOk = false :=
  ⟨c2aReach3, by decide, cxReach31, by decide⟩

open PersistentLazyRBTree in
/-- C3: for every sequence `s` and index `0 ≤ i ≤ len s`, `split s i`
returns a pair whose left part has exactly `i` elements, whose right part
has the remaining `len s - i` elements, and whose parts each have a black
root whenever non-empty (here: the root, when present, is black). -/
theorem claimC3 {α : Type u} (s : PersistentLazyRBTree α) (i : Nat)
    (h : s.lenOk = true) (hb : s.rootBlack = true) (hi : i ≤ s.len) :
    ∃ l r, s.split i = some (l, r) ∧ l.len = i ∧ r.len = s.len - i ∧
      l.rootBlack = true ∧ r.rootBlack = true := by
  obtain ⟨l, r, hsp, hlt, hrt, hlok, hrok, hblk, -⟩ := seqSplit_spec s i h hi
  have hslen : s.len = s.toList.length := seqLen_eq h
  refine ⟨l, r, hsp, ?_, ?_, (hblk hb).1, (hblk hb).2⟩
  · rw [seqLen_eq hlok, hlt, List.length_take]
    omega
  · rw [seqLen_eq hrok, hrt, List.length_drop]
    omega

/-- Witness for C3 at a concrete two-element sequence split at 1. -/
theorem claimC3_witness :
    (⟨some (.tree .black 1 2 (.leaf 0) (.leaf 1))⟩ : PersistentLazyRBTree Nat).lenOk = true ∧
    (⟨some (.tree .black 1 2 (.leaf 0) (.leaf 1))⟩ : PersistentLazyRBTree Nat).rootBlack = true ∧
    1 ≤ (⟨some (.tree .black 1 2 (.leaf 0) (.leaf 1))⟩ : PersistentLazyRBTree Nat).len ∧
    (∃ l r, (⟨some (.tree .black 1 2 (.leaf 0) (.leaf 1))⟩ : PersistentLazyRBTree Nat).split 1 =
        some (l, r) ∧ l.len = 1 ∧
      r.len = (⟨some (.tree .black 1 2 (.leaf 0) (.leaf 1))⟩ : PersistentLazyRBTree Nat).len - 1 ∧
      l.rootBlack = true ∧ r.rootBlack = true) :=
  ⟨by decide, by decide, by decide,
    claimC3 (⟨some (.tree .black 1 2 (.leaf 0) (.leaf 1))⟩ : PersistentLazyRBTree Nat) 1
      (by decide) (by decide) (by decide)⟩

/-- C4: the claim says bulk construction never fails, including on the
empty input; the code panics there: `from_iter` of the empty iterator
reaches `res.remove(0)` on an empty vector. In the embedding the panic is
`none`. -/
theorem claimC4 : PersistentLazyRBTree.fromIter ([] : List Nat) = none :=
  PersistentLazyRBTree.fromIter_nil

open PersistentLazyRBTree in
/-- C5: for every sequence `s`, index `0 ≤ i ≤ len s` and value `v`, the
sequence `insert s i v` has `v` at position `i`, keeps every position
`j < i` unchanged, and shifts every old position `j ≥ i` to `j + 1`. -/
theorem claimC5 {α : Type u} (s : PersistentLazyRBTree α) (i : Nat) (v : α)
    (h : s.lenOk = true) (hi : i ≤ s.len) :
    ∃ t, s.insert i v = some t ∧ t.index i = some v ∧
      (∀ j, j < i → t.index j = s.index j) ∧
      (∀ j, i ≤ j → j < s.len → t.index (j + 1) = s.index j) := by
  obtain ⟨t, ht, htlist, htok, -, -⟩ := seqInsert_spec s i v h hi
  have hslen : s.len = s.toList.length := seqLen_eq h
  have htake : (s.toList.take i).length = i := by
    rw [List.length_take]; omega
  have htlen : t.len = s.len + 1 := by
    rw [seqLen_eq htok, htlist, List.length_append, List.length_cons, List.length_drop,
      htake, hslen]
    omega
  refine ⟨t, ht, ?_, ?_, ?_⟩
  · rw [seqIndex_spec htok (by omega), htlist,
      List.getElem?_append_right (by omega), htake]
    simp
  · intro j hj
    rw [seqIndex_spec htok (by omega), seqIndex_spec h (by omega), htlist,
      List.getElem?_append_left (by omega),
      List.getElem?_take_of_lt hj]
  · intro j hij hj
    rw [seqIndex_spec htok (by omega), seqIndex_spec h hj, htlist,
      List.getElem?_append_right (by omega), htake]
    have hsub : j + 1 - i = (j - i) + 1 := by omega
    rw [hsub, List.getElem?_cons_succ, List.getElem?_drop]
    congr 1
    omega

/-- Witness for C5: inserting 7 at position 1 of a concrete two-element
sequence. -/
theorem claimC5_witness :
    (⟨some (.tree .black 1 2 (.leaf 0) (.leaf 1))⟩ : PersistentLazyRBTree Nat).lenOk = true ∧
    1 ≤ (⟨some (.tree .black 1 2 (.leaf 0) (.leaf 1))⟩ : PersistentLazyRBTree Nat).len ∧
    (∃ t, (⟨some (.tree .black 1 2 (.leaf 0) (.leaf 1))⟩ : PersistentLazyRBTree Nat).insert 1 7 =
        some t ∧ t.index 1 = some 7 ∧
      (∀ j, j < 1 →
        t.index j = (⟨some (.tree .black 1 2 (.leaf 0) (.leaf 1))⟩ : PersistentLazyRBTree Nat).index j) ∧
      (∀ j, 1 ≤ j → j < (⟨some (.tree .black 1 2 (.leaf 0) (.leaf 1))⟩ : PersistentLazyRBTree Nat).len →
        t.index (j + 1) = (⟨some (.tree .black 1 2 (.leaf 0) (.leaf 1))⟩ : PersistentLazyRBTree Nat).index j)) :=
  ⟨by decide, by decide,
    claimC5 (⟨some (.tree .black 1 2 (.leaf 0) (.leaf 1))⟩ : PersistentLazyRBTree Nat) 1 7
      (by decide) (by decide)⟩

namespace PersistentLazyRBTree

variable {α : Type u}

theorem pushBuild_go : ∀ (items : List α) (s : PersistentLazyRBTree α), s.lenOk = true →
    ∃ b, List.foldl
        (fun acc v =>
          match acc with
          | none => none
          | some s => s.insert s.len v)
        (some s) items = some b ∧
      b.toList = s.toList ++ items ∧ b.lenOk = true
  | [], s => fun h => ⟨s, rfl, by simp, h⟩
  | v :: rest, s => by
    intro h
    obtain ⟨t, ht, htlist, htok, -, -⟩ := seqInsert_spec s s.len v h (Nat.le_refl _)
    have hslen : s.len = s.toList.length := seqLen_eq h
    have ht2 : t.toList = s.toList ++ [v] := by
      rw [htlist, List.take_of_length_le (by omega), List.drop_of_length_le (by omega)]
    obtain ⟨b, hb, hblist, hbok⟩ := pushBuild_go rest t htok
    refine ⟨b, ?_, ?_, hbok⟩
    · rw [List.foldl_cons]
      show List.foldl
        (fun acc v =>
          match acc with
          | none => none
          | some s => s.insert s.len v)
        (s.insert s.len v) rest = some b
      rw [ht, hb]
    · rw [hblist, ht2]
      simp

theorem pushBuild_spec (items : List α) :
    ∃ b, pushBuild items = some b ∧ b.toList = items ∧ b.lenOk = true := by
  obtain ⟨b, hb, hblist, hbok⟩ := pushBuild_go items new (by simp)
  exact ⟨b, hb, by simpa using hblist, hbok⟩

end PersistentLazyRBTree

open PersistentLazyRBTree in
/-- C6 counterexample: the claim as stated quantifies over every ordered
list of values, but at the empty list `fromIter` fails (the source panics)
while repeated insertion yields the empty sequence, so the two are not
element-wise identical sequences. -/
theorem claimC6_counterexample :
    PersistentLazyRBTree.fromIter ([] : List Nat) = none ∧
    PersistentLazyRBTree.pushBuild ([] : List Nat) = some PersistentLazyRBTree.new :=
  ⟨PersistentLazyRBTree.fromIter_nil, rfl⟩

open PersistentLazyRBTree in
/-- C6 (amended): for every non-empty ordered list of values, `fromIter`
is element-wise identical to repeatedly calling `insert(seq, len seq, v)`
for each value in order starting from the empty sequence. -/
theorem claimC6_amended {α : Type u} (items : List α) (hne : items ≠ []) :
    ∃ a b, PersistentLazyRBTree.fromIter items = some a ∧
      PersistentLazyRBTree.pushBuild items = some b ∧
      a.toList = b.toList ∧ a.len = b.len ∧ ∀ j, a.index j = b.index j := by
  obtain ⟨a, ha, halist, hagood⟩ := fromIter_spec items hne
  obtain ⟨b, hb, hblist, hbok⟩ := pushBuild_spec items
  have hlist : a.toList = b.toList := by rw [halist, hblist]
  have hlen : a.len = b.len := by rw [seqLen_eq hagood.1, seqLen_eq hbok, hlist]
  refine ⟨a, b, ha, hb, hlist, hlen, fun j => ?_⟩
  by_cases hj : j < a.len
  · rw [seqIndex_spec hagood.1 hj, seqIndex_spec hbok (hlen ▸ hj), hlist]
  · rw [seqIndex_none hj, seqIndex_none (by omega)]

/-- Witness for the amended C6 at the concrete list `[3, 1, 2]`. -/
theorem claimC6_amended_witness :
    ([3, 1, 2] : List Nat) ≠ [] ∧
    (∃ a b, PersistentLazyRBTree.fromIter ([3, 1, 2] : List Nat) = some a ∧
      PersistentLazyRBTree.pushBuild ([3, 1, 2] : List Nat) = some b ∧
      a.toList = b.toList ∧ a.len = b.len ∧ ∀ j, a.index j = b.index j) :=
  ⟨by decide, claimC6_amended ([3, 1, 2] : List Nat) (by decide)⟩

/-- C7: the spec describes the iterator as a cursor over `[begin, end)`
yielding each element exactly once under any interleaving of forward and
backward steps; the code compares `begin` against the tree length and
`end` against 0 instead of against each other, so on a one-element
sequence one forward step followed by one backward step yields the single
element twice (2 yields, while `len = 1`). -/
theorem claimC7 :
    (⟨some (.leaf (5 : Nat))⟩ : PersistentLazyRBTree Nat).len = 1 ∧
    Iter.init (⟨some (.leaf (5 : Nat))⟩ : PersistentLazyRBTree Nat) = ⟨0, 1⟩ ∧
    Iter.next (⟨some (.leaf (5 : Nat))⟩ : PersistentLazyRBTree Nat) ⟨0, 1⟩ =
      (some 5, ⟨1, 1⟩) ∧
    Iter.nextBack (⟨some (.leaf (5 : Nat))⟩ : PersistentLazyRBTree Nat) ⟨1, 1⟩ =
      (some 5, ⟨1, 0⟩) := by
  refine ⟨rfl, rfl, ?_, ?_⟩ <;> decide

open PersistentLazyRBTree in
/-- C8: for all sequences `a` and `b` (including empty ones), merging
succeeds and the length of the result is `len a + len b`. -/
theorem claimC8 {α : Type u} (a b : PersistentLazyRBTree α)
    (ha : a.lenOk = true) (hb : b.lenOk = true) :
    ∃ m, PersistentLazyRBTree.merge a b = some m ∧ m.len = a.len + b.len := by
  obtain ⟨m, hm, hmlist, hmlen, -, -, -, -⟩ := seqMerge_spec a b
  refine ⟨m, hm, ?_⟩
  rw [seqLen_eq (hmlen ha hb), seqLen_eq ha, seqLen_eq hb, hmlist, List.length_append]

/-- Witness for C8: merging a one-element and a two-element sequence, and
an empty pair. -/
theorem claimC8_witness :
    (⟨some (.leaf 9)⟩ : PersistentLazyRBTree Nat).lenOk = true ∧
    (⟨some (.tree .black 1 2 (.leaf 0) (.leaf 1))⟩ : PersistentLazyRBTree Nat).lenOk = true ∧
    (∃ m, PersistentLazyRBTree.merge (⟨some (.leaf 9)⟩ : PersistentLazyRBTree Nat)
        (⟨some (.tree .black 1 2 (.leaf 0) (.leaf 1))⟩ : PersistentLazyRBTree Nat) = some m ∧
      m.len = (⟨some (.leaf 9)⟩ : PersistentLazyRBTree Nat).len +
        (⟨some (.tree .black 1 2 (.leaf 0) (.leaf 1))⟩ : PersistentLazyRBTree Nat).len) ∧
    (∃ m, PersistentLazyRBTree.merge (PersistentLazyRBTree.new : PersistentLazyRBTree Nat)
        PersistentLazyRBTree.new = some m ∧
      m.len = (PersistentLazyRBTree.new : PersistentLazyRBTree Nat).len +
        (PersistentLazyRBTree.new : PersistentLazyRBTree Nat).len) :=
  ⟨by decide, by decide,
    claimC8 (⟨some (.leaf 9)⟩ : PersistentLazyRBTree Nat)
      (⟨some (.tree .black 1 2 (.leaf 0) (.leaf 1))⟩ : PersistentLazyRBTree Nat)
      (by decide) (by decide),
    claimC8 (PersistentLazyRBTree.new : PersistentLazyRBTree Nat)
      PersistentLazyRBTree.new (by decide) (by decide)⟩

open PersistentLazyRBTree in
/-- C9: for every sequence `s`, index `0 ≤ i < len s` and value `v`,
erasing position `i` of `insert s i v` gives back a sequence element-wise
identical to `s`. -/
theorem claimC9 {α : Type u} (s : PersistentLazyRBTree α) (i : Nat) (v : α)
    (h : s.lenOk = true) (hi : i < s.len) :
    ∃ t u, s.insert i v = some t ∧ t.erase i = some u ∧
      u.toList = s.toList ∧ u.len = s.len ∧ ∀ j, u.index j = s.index j := by
  obtain ⟨t, ht, htlist, htok, -, -⟩ := seqInsert_spec s i v h (Nat.le_of_lt hi)
  have hslen : s.len = s.toList.length := seqLen_eq h
  have htake : (s.toList.take i).length = i := by
    rw [List.length_take]; omega
  have htlen : t.len = s.len + 1 := by
    rw [seqLen_eq htok, htlist, List.length_append, List.length_cons, List.length_drop,
      htake, hslen]
    omega
  obtain ⟨u, hu, hulist, huok, -, -⟩ := seqErase_spec t i htok (by omega)
  have hu2 : u.toList = s.toList := by
    rw [hulist, htlist, List.take_append_of_le_length (by omega),
      List.take_of_length_le (by omega), List.drop_append_eq_append_drop,
      List.drop_of_length_le (by omega), htake]
    have hsub : i + 1 - i = 1 := by omega
    rw [hsub, List.nil_append, List.drop_one, List.tail_cons, List.take_append_drop]
  have hulen : u.len = s.len := by
    rw [seqLen_eq huok, hu2, hslen]
  refine ⟨t, u, ht, hu, hu2, hulen, fun j => ?_⟩
  by_cases hj : j < s.len
  · rw [seqIndex_spec huok (by omega), seqIndex_spec h hj, hu2]
  · rw [seqIndex_none (by omega), seqIndex_none hj]

/-- Witness for C9: insert 7 at position 0 of a concrete two-element
sequence, then erase position 0. -/
theorem claimC9_witness :
    (⟨some (.tree .black 1 2 (.leaf 4) (.leaf 6))⟩ : PersistentLazyRBTree Nat).lenOk = true ∧
    0 < (⟨some (.tree .black 1 2 (.leaf 4) (.leaf 6))⟩ : PersistentLazyRBTree Nat).len ∧
    (∃ t u, (⟨some (.tree .black 1 2 (.leaf 4) (.leaf 6))⟩ : PersistentLazyRBTree Nat).insert 0 7 =
        some t ∧ t.erase 0 = some u ∧
      u.toList = (⟨some (.tree .black 1 2 (.leaf 4) (.leaf 6))⟩ : PersistentLazyRBTree Nat).toList ∧
      u.len = (⟨some (.tree .black 1 2 (.leaf 4) (.leaf 6))⟩ : PersistentLazyRBTree Nat).len ∧
      ∀ j, u.index j = (⟨some (.tree .black 1 2 (.leaf 4) (.leaf 6))⟩ : PersistentLazyRBTree Nat).index j) :=
  ⟨by decide, by decide,
    claimC9 (⟨some (.tree .black 1 2 (.leaf 4) (.leaf 6))⟩ : PersistentLazyRBTree Nat) 0 7
      (by decide) (by decide)⟩

open PersistentLazyRBTree in
/-- C10: under the public API's stated preconditions the node engine's
leaf-case panic branches are dead: `Node.merge` never returns `none` for
any pair of nodes, `Node.split` never returns `none` on a well-formed
internal range, and the public `split`/`insert`/`erase`/`index` never
reach a panic when their index precondition holds. -/
theorem claimC10 {α : Type u} :
    (∀ a b : Node α, ∃ m, Node.merge a b = some m) ∧
    (∀ (t : Node α) (i : Nat), t.lenOk = true → 0 < i → i < t.len →
      ∃ p, Node.split t i = some p) ∧
    (∀ (s : PersistentLazyRBTree α) (i : Nat), s.lenOk = true → i ≤ s.len →
      ∃ p, s.split i = some p) ∧
    (∀ (s : PersistentLazyRBTree α) (i : Nat) (v : α), s.lenOk = true → i ≤ s.len →
      ∃ t, s.insert i v = some t) ∧
    (∀ (s : PersistentLazyRBTree α) (i : Nat), s.lenOk = true → i < s.len →
      ∃ t, s.erase i = some t) ∧
    (∀ (s : PersistentLazyRBTree α) (i : Nat), s.lenOk = true → i < s.len →
      ∃ x, s.index i = some x) := by
  refine ⟨?_, ?_, ?_, ?_, ?_, ?_⟩
  · intro a b
    obtain ⟨m, hm, -⟩ := Node.merge_spec a b
    exact ⟨m, hm⟩
  · intro t i h h0 hi
    obtain ⟨l, r, hsp, -⟩ := Node.split_spec t i h h0 hi
    exact ⟨(l, r), hsp⟩
  · intro s i h hi
    obtain ⟨l, r, hsp, -⟩ := seqSplit_spec s i h hi
    exact ⟨(l, r), hsp⟩
  · intro s i v h hi
    obtain ⟨t, ht, -⟩ := seqInsert_spec s i v h hi
    exact ⟨t, ht⟩
  · intro s i h hi
    obtain ⟨t, ht, -⟩ := seqErase_spec s i h hi
    exact ⟨t, ht⟩
  · intro s i h hi
    obtain ⟨n, hn⟩ := root_some_of_len_pos (Nat.lt_of_le_of_lt (Nat.zero_le _) hi)
    refine ⟨n.index i, ?_⟩
    rcases s with ⟨root⟩
    simp only [root_mk] at hn
    subst hn
    simp only [len_mk_some] at hi
    simp [PersistentLazyRBTree.index, hi]

/-- Witness for C10 at concrete inputs for each conjunct. -/
theorem claimC10_witness :
    (∃ m, Node.merge (.leaf (0 : Nat)) (.leaf 1) = some m) ∧
    ((Node.tree .black 1 2 (.leaf (0 : Nat)) (.leaf 1)).lenOk = true ∧
      (0 : Nat) < 1 ∧ 1 < (Node.tree .black 1 2 (.leaf (0 : Nat)) (.leaf 1)).len ∧
      ∃ p, Node.split (Node.tree .black 1 2 (.leaf (0 : Nat)) (.leaf 1)) 1 = some p) ∧
    (∃ p, (⟨some (.leaf (3 : Nat))⟩ : PersistentLazyRBTree Nat).split 1 = some p) ∧
    (∃ t, (⟨some (.leaf (3 : Nat))⟩ : PersistentLazyRBTree Nat).insert 0 4 = some t) ∧
    (∃ t, (⟨some (.leaf (3 : Nat))⟩ : PersistentLazyRBTree Nat).erase 0 = some t) ∧
    (∃ x, (⟨some (.leaf (3 : Nat))⟩ : PersistentLazyRBTree Nat).index 0 = some x) :=
  ⟨claimC10.1 (.leaf 0) (.leaf 1),
    ⟨by decide, by decide, by decide,
      claimC10.2.1 (Node.tree .black 1 2 (.leaf 0) (.leaf 1)) 1 (by decide) (by decide)
        (by decide)⟩,
    claimC10.2.2.1 (⟨some (.leaf 3)⟩ : PersistentLazyRBTree Nat) 1 (by decide) (by decide),
    claimC10.2.2.2.1 (⟨some (.leaf 3)⟩ : PersistentLazyRBTree Nat) 0 4 (by decide) (by decide),
    claimC10.2.2.2.2.1 (⟨some (.leaf 3)⟩ : PersistentLazyRBTree Nat) 0 (by decide) (by decide),
    claimC10.2.2.2.2.2 (⟨some (.leaf 3)⟩ : PersistentLazyRBTree Nat) 0 (by decide) (by decide)⟩
